import Mathlib

/-!
Verification of the Ogg Vorbis comment module (`mutagen/oggvorbis.py`)
against its natural-language specification.

The module is modelled shallowly.  A file is represented by the sequence of
container frames it parses to (`OggPage` below); byte-level concerns
(the frame codec used by the tail scan of `load`) are modelled separately
over `List Nat` byte strings.  Operations of `oggvorbis.py` itself
(`OggVorbisInfo.__init__`, `OggVCommentDict._inject`, `OggVorbis.load`)
are translated from the source.  Operations the source imports from
elsewhere in the library (`OggPage.to_packets`, `OggPage.from_packets`,
`OggPage.renumber`, the frame codec) are not part of the given source tree
and are modelled from the specification; each such definition carries a
doc comment saying so.
-/

/-- Error outcomes of the module.  `ioError` stands for the IOError family
raised on truncated reads and failed scans (surfaced as
`OggVorbisNoHeaderError` by `load`, `save` and `delete`); `gapError` is the
reassembly failure on non-contiguous sequence numbers; `structureError` is
the failed packet-count assertion of `_inject`; `noHeader` is
`OggVorbisNoHeaderError` raised directly. -/
inductive Err where
  | ioError
  | gapError
  | structureError
  | noHeader
deriving DecidableEq, Repr

/-- A container frame as exposed by the frame codec: stream serial,
sequence number, granule position, the three header flags, the derived
last-packet-complete flag, and the payload subdivided into packet chunks
by the segment table. -/
structure OggPage where
  serial : Nat
  sequence : Nat
  position : Nat
  first : Bool
  last : Bool
  continued : Bool
  complete : Bool
  packets : List (List Nat)
deriving DecidableEq, Repr

/-- Default frame used with `headD` and `getLastD`. -/
def dPage : OggPage :=
  { serial := 0, sequence := 0, position := 0, first := false, last := false,
    continued := false, complete := false, packets := [] }

/-- The byte string `vorbis`. -/
def vorbisWord : List Nat := [118, 111, 114, 98, 105, 115]

/-- Marker of the identification packet, `\x01vorbis`. -/
def idMarker : List Nat := 1 :: vorbisWord

/-- Marker of the comment (metadata) packet, `\x03vorbis`. -/
def commentMarker : List Nat := 3 :: vorbisWord

/-- Marker of the setup packet, `\x05vorbis`. -/
def setupMarker : List Nat := 5 :: vorbisWord

/-- Little-endian value of a byte string (cdata.uint_le). -/
def readLE : List Nat → Nat
  | [] => 0
  | b :: rest => b % 256 + 256 * readLE rest

/-- k-byte little-endian encoding of a number. -/
def uintLE : Nat → Nat → List Nat
  | 0, _ => []
  | k + 1, n => n % 256 :: uintLE k (n / 256)

/-- Bitrate selection of `OggVorbisInfo.__init__` (source lines 49-61),
given the three 4-byte fields max, nominal, min of the identification
packet. -/
def bitrateOf (maxB nomB minB : Nat) : Nat :=
  if nomB = 0 then (maxB + minB) / 2
  else if maxB ≠ 0 then min maxB nomB
  else if minB ≠ 0 then max minB nomB
  else nomB

/-- Stream information extracted by `OggVorbisInfo.__init__`. -/
structure OggVorbisInfo where
  channels : Nat
  sample_rate : Nat
  serial : Nat
  bitrate : Nat
deriving DecidableEq, Repr

/-- The scan of `OggVorbisInfo.__init__` (source lines 40-42): read frames
until one whose first packet begins with the identification marker. -/
def findIdPage : List OggPage → Option OggPage
  | [] => none
  | p :: ps =>
    if idMarker.isPrefixOf (p.packets.headD []) then some p else findIdPage ps

/-- `OggVorbisInfo.__init__` (source lines 39-61) over the parsed frame
sequence of the file.  Running out of frames during the scan is the
truncated-read IOError; a marker frame that does not carry
is-first-of-stream raises IOError (source line 44) before any field is
extracted. -/
def infoInit (pages : List OggPage) : Except Err OggVorbisInfo :=
  match findIdPage pages with
  | none => .error .ioError
  | some p =>
    if p.first then
      let pk := p.packets.headD []
      .ok { channels := pk.getD 11 0,
            sample_rate := readLE ((pk.drop 12).take 4),
            serial := p.serial,
            bitrate := bitrateOf (readLE ((pk.drop 16).take 4))
                                 (readLE ((pk.drop 20).take 4))
                                 (readLE ((pk.drop 24).take 4)) }
    else .error .ioError

/-- The info step as seen through `OggVorbis.load` (source lines 185-186):
IOError from the scan is re-raised as `OggVorbisNoHeaderError`. -/
def loadInfo (pages : List OggPage) : Except Err OggVorbisInfo :=
  match infoInit pages with
  | .error _ => .error .noHeader
  | .ok i => .ok i

/-- Does the first packet chunk of a frame begin with the comment marker
(source line 88)?  An empty chunk list is treated as not matching. -/
def startsWithComment (p : OggPage) : Bool :=
  commentMarker.isPrefixOf (p.packets.headD [])

/-- Does the final packet chunk of a frame begin with the setup marker
(source line 91)? -/
def lastIsSetup (p : OggPage) : Bool :=
  setupMarker.isPrefixOf (p.packets.getLastD [])

/-- The initial search of `_inject` (source lines 87-89): frames of every
serial are read until one whose first packet begins with the comment
marker.  Returns the skipped frames, the found frame, and the rest;
`none` when the file runs out (IOError in the source). -/
def findComment : List OggPage → Option (List OggPage × OggPage × List OggPage)
  | [] => none
  | p :: ps =>
    if startsWithComment p then some ([], p, ps)
    else
      match findComment ps with
      | none => none
      | some (pre, q, rest) => some (p :: pre, q, rest)

/-- The collection loop of `_inject` (source lines 91-94): frames are read
and those matching the serial of the first collected frame are appended,
until the last read frame (of any serial) has a final packet beginning
with the setup marker.  Returns the traversed region, the collected
same-serial frames, and the remaining tail. -/
def collectOld (s : Nat) :
    List OggPage → Except Err (List OggPage × List OggPage × List OggPage)
  | [] => .error .ioError
  | p :: ps =>
    let olds := if p.serial = s then [p] else []
    if lastIsSetup p then .ok ([p], olds, ps)
    else
      match collectOld s ps with
      | .error e => .error e
      | .ok (reg, olds2, tl) => .ok (p :: reg, olds ++ olds2, tl)

/-- The whole pre-mutation scan of `_inject` (source lines 82-94): find the
frame where the comment packet starts, then collect frames of its serial
through the frame whose last packet is the setup packet.  Returns
(pre, region, old, tail): the frames before the found frame, the traversed
region starting at it, the collected old frames, and the untraversed tail. -/
def scanComments (file : List OggPage) :
    Except Err (List OggPage × List OggPage × List OggPage × List OggPage) :=
  match findComment file with
  | none => .error .ioError
  | some (pre, start, rest) =>
    if lastIsSetup start then .ok (pre, [start], [start], rest)
    else
      match collectOld start.serial rest with
      | .error e => .error e
      | .ok (reg, olds, tl) => .ok (pre, start :: reg, start :: olds, tl)

/-- Modelled from the spec (§4.2): one step of the packet reassembly state
machine.  Given the pending (unterminated) packet bytes and a frame,
returns the packets closed inside this frame and the new pending bytes.
A continued frame glues its first chunk onto the pending packet; the
last chunk stays pending unless the frame is complete. -/
def stepPage (pending : Option (List Nat)) (p : OggPage) :
    List (List Nat) × Option (List Nat) :=
  match p.packets with
  | [] => ([], pending)
  | c :: cs =>
    let chunks := (if p.continued then pending.getD [] ++ c else c) :: cs
    if p.complete then (chunks, none)
    else (chunks.dropLast, some (chunks.getLastD []))

/-- Modelled from the spec (§4.2): fold of `stepPage` over the frames,
returning all fully closed packets; a final unterminated packet is not
returned. -/
def assemblePackets : Option (List Nat) → List OggPage → List (List Nat)
  | _, [] => []
  | pending, p :: ps =>
    (stepPage pending p).1 ++ assemblePackets (stepPage pending p).2 ps

/-- Is a list of numbers strictly contiguous, each entry one more than the
previous? -/
def isContig : List Nat → Bool
  | [] => true
  | [_] => true
  | a :: b :: t => (b == a + 1) && isContig (b :: t)

/-- Modelled from the spec (§4.2): `OggPage.to_packets`.  Fails with the
gap error when the frame sequence numbers are not contiguous; otherwise
returns the closed packets of the reassembly. -/
def to_packets (pages : List OggPage) : Except Err (List (List Nat)) :=
  if isContig (pages.map (fun p => p.sequence)) then
    .ok (assemblePackets none pages)
  else .error .gapError

/-- Split a byte string into pieces of the given sizes. -/
def splitBySizes : List Nat → List Nat → List (List Nat)
  | [], _ => []
  | s :: rest, bytes => bytes.take s :: splitBySizes rest (bytes.drop s)

/-- Modelled from the spec (§4.3, §6): the frames holding one packet.
Each chunk of the pre-computed payload split becomes one frame; every
frame but the first is continued, and only the final frame (holding the
closing short segment) is complete.  Flags is-first and is-last are not
set, serial and sequence are filled in by the caller. -/
def mkPacketFrames : List (List Nat) → Bool → List OggPage
  | [], _ => []
  | [c], isFirst =>
    [{ serial := 0, sequence := 0, position := 0, first := false,
       last := false, continued := !isFirst, complete := true,
       packets := [c] }]
  | c :: c2 :: rest, isFirst =>
    { serial := 0, sequence := 0, position := 0, first := false,
      last := false, continued := !isFirst, complete := false,
      packets := [c] } ::
    mkPacketFrames (c2 :: rest) false

/-- Modelled from the spec (§4.3, §6): fragment one packet greedily into
frames.  Segments are at most 255 bytes and a frame holds at most 255
segments, so a full frame carries 65025 payload bytes; the final frame
carries the remainder, closed by a short (possibly empty) segment. -/
def framesForPacket (bytes : List Nat) : List OggPage :=
  mkPacketFrames
    (splitBySizes (List.replicate (bytes.length / 65025) 65025
                   ++ [bytes.length % 65025]) bytes)
    true

/-- Assign consecutive sequence numbers starting at the given value. -/
def numberFrames (startSeq : Nat) : List OggPage → List OggPage
  | [] => []
  | p :: ps => { p with sequence := startSeq } :: numberFrames (startSeq + 1) ps

/-- Modelled from the spec (§4.3 with the §4.6 step 4 policy):
`OggPage.from_packets` as called by `_inject`, with a frame break forced
at every packet boundary so distinct packets never share a frame.
Output frames are numbered consecutively from `startSeq`; serial and the
is-first and is-last flags are left for the caller. -/
def from_packets (pkts : List (List Nat)) (startSeq : Nat) : List OggPage :=
  numberFrames startSeq ((pkts.map framesForPacket).flatten)

/-- Overwrite the last-packet-complete flag of the final frame
(source line 109). -/
def setLastComplete (c : Bool) : List OggPage → List OggPage
  | [] => []
  | [p] => [{ p with complete := c }]
  | p :: q :: t => p :: setLastComplete c (q :: t)

/-- The new frames rendered by `_inject` (source lines 102-109): packet 0
replaced by the comment marker plus the metadata blob, packet 1 carried
through; refragmented starting at the sequence of the first old frame;
all frames given the old serial; the completeness flag of the final frame
copied from the final old frame. -/
def buildNewPages (old : List OggPage) (md : List Nat)
    (pkts : List (List Nat)) : List OggPage :=
  setLastComplete (old.getLastD dPage).complete
    ((from_packets [commentMarker ++ md, pkts.getD 1 []]
        (old.headD dPage).sequence).map
      (fun p => { p with serial := (old.headD dPage).serial }))

/-- The new frames of an `_inject` run, when all pre-mutation steps
succeed. -/
def newPagesOf (file : List OggPage) (md : List Nat) : Option (List OggPage) :=
  match scanComments file with
  | .error _ => none
  | .ok (_, _, old, _) =>
    match to_packets old with
    | .error _ => none
    | .ok pkts =>
      if pkts.length = 2 then some (buildNewPages old md pkts) else none

/-- Modelled from the spec (§4.6 step 8): `OggPage.renumber`.  Every frame
of the given serial is given the next contiguous sequence number (and its
checksum recomputed on write); frames of other serials are traversed
untouched. -/
def renumber (s : Nat) (seq : Nat) : List OggPage → List OggPage
  | [] => []
  | p :: ps =>
    if p.serial = s then { p with sequence := seq } :: renumber s (seq + 1) ps
    else p :: renumber s seq ps

/-- `OggVCommentDict._inject` (source lines 80-135) over the parsed frame
sequence of the file.  The scan and the packet-count assertion come
first; on success the new frames replace the old frames in place (frames
of other serials inside the traversed region keep their order after the
inserted data, exactly as the insert-then-delete splice of source lines
112-127 leaves them), and when the frame count changed the downstream
frames are renumbered from the sequence after the last new frame
(source lines 129-135). -/
def inject (file : List OggPage) (md : List Nat) : Except Err (List OggPage) :=
  match scanComments file with
  | .error e => .error e
  | .ok (pre, region, old, tail) =>
    match to_packets old with
    | .error e => .error e
    | .ok pkts =>
      if pkts.length = 2 then
        let s := (old.headD dPage).serial
        let nps := buildNewPages old md pkts
        let rest := region.filter (fun p => p.serial != s) ++ tail
        if old.length = nps.length then .ok (pre ++ nps ++ rest)
        else
          .ok (pre ++ nps ++
               renumber s ((nps.getLastD dPage).sequence + 1) rest)
      else .error .structureError

/-- The file state after an `_inject` call: on success the spliced file;
on a failed pre-mutation check the unchanged input.  In the source every
write to the file object happens after the scan and the packet-count
assertion (lines 82-110 only read; the first write is at line 115), so an
error leaves the file as it was. -/
def injectFile (file : List OggPage) (md : List Nat) : List OggPage :=
  match inject file md with
  | .ok f => f
  | .error _ => file

/-- Sequence numbers of the frames of one serial, in file order. -/
def seqsOf (s : Nat) (l : List OggPage) : List Nat :=
  (l.filter (fun p => p.serial == s)).map (fun p => p.sequence)

/-- A frame with its sequence number cleared, for stating that an
operation changes nothing but the sequence field. -/
def stripSeq (p : OggPage) : OggPage := { p with sequence := 0 }

/-- The payload bytes of a frame. -/
def pagePayload (p : OggPage) : List Nat := p.packets.flatten

/-- The frame magic signature, OggS. -/
def oggMagic : List Nat := [79, 103, 103, 83]

/-- Modelled from the spec (§6): the 4-byte checksum of a frame, computed
over the whole frame with the checksum field zeroed.  The spec does not
fix the checksum polynomial, so an explicit byte accumulation stands in
for it; no claim below depends on the particular function, only on the
encoder and decoder agreeing. -/
def checksumM (l : List Nat) : Nat :=
  l.foldl (fun a b => (a * 31 + b) % 4294967296) 0

/-- Lacing values of a closed packet chunk of n bytes: 255-byte segments
and a final short (possibly zero) segment. -/
def closedLacing (n : Nat) : List Nat :=
  List.replicate (n / 255) 255 ++ [n % 255]

/-- Lacing values of a chunk that continues into the next frame: full
segments only. -/
def openLacing (n : Nat) : List Nat := List.replicate (n / 255) 255

/-- Modelled from the spec (§4.1, §6): the segment table of a frame,
rebuilt from its packet chunks; every chunk but the last is closed, and
the last is closed exactly when the frame is complete. -/
def segsOfPage (p : OggPage) : List Nat :=
  match p.packets.getLast? with
  | none => []
  | some lastC =>
    ((p.packets.dropLast.map (fun c => closedLacing c.length)).flatten)
      ++ (if p.complete then closedLacing lastC.length
          else openLacing lastC.length)

/-- The header flag byte: bit 0 continued, bit 1 is-first, bit 2
is-last. -/
def flagByte (p : OggPage) : Nat :=
  (if p.continued then 1 else 0) + (if p.first then 2 else 0)
    + (if p.last then 4 else 0)

/-- Modelled from the spec (§4.1, §6): FrameCodec.encode.  Serializes the
header fields, computes the checksum over the frame with the checksum
field zeroed, fills it in, and appends the payload. -/
def encodePage (p : OggPage) : List Nat :=
  let segs := segsOfPage p
  let payload := p.packets.flatten
  let head0 := oggMagic ++ [0, flagByte p] ++ uintLE 8 p.position
    ++ uintLE 4 p.serial ++ uintLE 4 p.sequence ++ [0, 0, 0, 0]
    ++ [segs.length] ++ segs
  oggMagic ++ [0, flagByte p] ++ uintLE 8 p.position
    ++ uintLE 4 p.serial ++ uintLE 4 p.sequence
    ++ uintLE 4 (checksumM (head0 ++ payload))
    ++ [segs.length] ++ segs ++ payload

/-- The byte content of a file holding the given frames back to back. -/
def renderFile (l : List OggPage) : List Nat := (l.map encodePage).flatten

/-- Split a payload into packet chunks according to the segment table:
segments accumulate into a chunk until a segment shorter than 255 closes
it; a trailing unterminated chunk is still exposed. -/
def chunkPayload : List Nat → List Nat → List Nat → List (List Nat)
  | [], _, acc => if acc.isEmpty then [] else [acc]
  | sg :: rest, payload, acc =>
    if sg < 255 then
      (acc ++ payload.take sg) :: chunkPayload rest (payload.drop sg) []
    else chunkPayload rest (payload.drop sg) (acc ++ payload.take sg)

/-- Modelled from the spec (§4.1, §6): FrameCodec.decode at a byte
cursor.  Validates the magic signature and the checksum, reads the fixed
header fields, the segment table and the payload; `none` (the
corrupt-frame or truncated-read error) on any mismatch. -/
def decodePage (data : List Nat) : Option OggPage :=
  if oggMagic.isPrefixOf data then
    if 27 ≤ data.length then
      let flags := data.getD 5 0
      let segcount := data.getD 26 0
      let segs := (data.drop 27).take segcount
      let payloadLen := segs.sum
      if 27 + segcount + payloadLen ≤ data.length then
        let payload := (data.drop (27 + segcount)).take payloadLen
        let head0 := data.take 22 ++ [0, 0, 0, 0] ++ [segcount] ++ segs
        if checksumM (head0 ++ payload)
            = readLE ((data.drop 22).take 4) then
          some { serial := readLE ((data.drop 14).take 4),
                 sequence := readLE ((data.drop 18).take 4),
                 position := readLE ((data.drop 6).take 8),
                 first := flags / 2 % 2 == 1,
                 last := flags / 4 % 2 == 1,
                 continued := flags % 2 == 1,
                 complete := if segs.isEmpty then true
                             else decide (segs.getLastD 0 < 255),
                 packets := chunkPayload segs payload [] }
        else none
      else none
    else none
  else none

/-- The tail window of the fast duration path (source lines 159-163): the
last 65536 bytes of the file, or the whole file when smaller. -/
def tailWindow (data : List Nat) : List Nat :=
  if 65536 ≤ data.length then data.drop (data.length - 65536) else data

/-- Index of the last occurrence of the magic signature in a byte string
(rindex, source line 164). -/
def findLastMagic (data : List Nat) : Option Nat :=
  ((List.range data.length).filter
    (fun i => oggMagic.isPrefixOf (data.drop i))).getLast?

/-- The fast-path tail scan of `OggVorbis.load` (source lines 158-169):
take the tail window, find the last magic signature, decode the frame
there.  A missing signature is the NoHeaderError of line 166; a failed
decode is the IOError of the frame codec. -/
def lastPageScan (data : List Nat) : Except Err OggPage :=
  match findLastMagic (tailWindow data) with
  | none => .error .noHeader
  | some i =>
    match decodePage ((tailWindow data).drop i) with
    | none => .error .ioError
    | some p => .ok p

/-- The duration decision of `OggVorbis.load` (source lines 158-183),
fast path: when the decoded tail frame belongs to the target serial, the
duration is its granule position divided by the sample rate (the float
division of line 183 modelled as exact rational division); `ok none`
means the frame belongs to another serial and the slow multiplexed path
runs instead (modelled separately as `slowSamples`). -/
def loadLengthFast (data : List Nat) (target rate : Nat) :
    Except Err (Option ℚ) :=
  match lastPageScan data with
  | .error e => .error e
  | .ok p =>
    if p.serial = target then .ok (some ((p.position : ℚ) / (rate : ℚ)))
    else .ok none

/-- The slow duration loop of `OggVorbis.load` (source lines 177-181) as
a small-step function spending one fuel unit per executed loop test.
The Bool is the phase: `true` is the outer while testing the is-last
flag of the current frame, `false` is the inner while advancing over
frames of other serials.  The inner loop exits only on a frame of the
target serial, whereupon the running samples value absorbs its granule
position and control returns to the outer test on the same frame.
`none` means the loop has not terminated within the given fuel. -/
def slowStep (target : Nat) : Nat → Bool → OggPage → List OggPage → Nat →
    Option (Except Err Nat)
  | 0, _, _, _, _ => none
  | fuel + 1, outer, cur, rest, samples =>
    if outer then
      if cur.last then some (.ok samples)
      else slowStep target fuel false cur rest samples
    else
      if cur.serial ≠ target then
        match rest with
        | [] => some (.error .ioError)
        | q :: rest2 => slowStep target fuel false q rest2 samples
      else slowStep target fuel true cur rest (max samples cur.position)

/-- Entry to the slow loop (source lines 174-176): read the first frame,
start the samples value at its granule position and enter the outer
test; an empty file is the truncated-read IOError. -/
def slowSamples (target : Nat) (fuel : Nat) :
    List OggPage → Option (Except Err Nat)
  | [] => some (.error .ioError)
  | p :: ps => slowStep target fuel true p ps p.position

/-- C6 counterexample: the claimed table entry (0, 0, 64000) → 64000 is
false; by the first selection rule (nominal = 0) the code computes
(0 + 64000) integer-divided by 2 = 32000. -/
theorem bitrate_table_cex :
    bitrateOf 0 0 64000 = 32000 ∧ bitrateOf 0 0 64000 ≠ 64000 := by
  decide

/-- C6 amended: for 32-bit triples (max, nominal, min), the reported
bitrate follows the four-case selection; the table entries evaluate to
(0,0,0) → 0, (0,128000,0) → 128000, (256000,0,64000) → 160000,
(256000,128000,64000) → 128000, and (0,0,64000) → 32000 (not the claimed
64000, which contradicts the first rule). -/
theorem bitrate_cases (maxB nomB minB : Nat)
    (_hb : maxB < 2 ^ 32 ∧ nomB < 2 ^ 32 ∧ minB < 2 ^ 32) :
    (nomB = 0 → bitrateOf maxB nomB minB = (maxB + minB) / 2)
    ∧ (nomB ≠ 0 → maxB ≠ 0 → bitrateOf maxB nomB minB = min maxB nomB)
    ∧ (nomB ≠ 0 → maxB = 0 → minB ≠ 0 → bitrateOf maxB nomB minB = max minB nomB)
    ∧ (nomB ≠ 0 → maxB = 0 → minB = 0 → bitrateOf maxB nomB minB = nomB)
    ∧ bitrateOf 0 0 0 = 0
    ∧ bitrateOf 0 128000 0 = 128000
    ∧ bitrateOf 256000 0 64000 = 160000
    ∧ bitrateOf 256000 128000 64000 = 128000
    ∧ bitrateOf 0 0 64000 = 32000 := by
  refine ⟨?_, ?_, ?_, ?_, by decide, by decide, by decide, by decide, by decide⟩
  · intro h0; simp [bitrateOf, h0]
  · intro hn hm; simp [bitrateOf, hn, hm]
  · intro hn hm hmin; simp [bitrateOf, hn, hm, hmin]
  · intro hn hm hmin; simp [bitrateOf, hn, hm, hmin]

/-- C6 witness: the selection theorem applied at the concrete 32-bit triple
(256000, 128000, 64000). -/
theorem bitrate_cases_witness :
    (256000 < 2 ^ 32 ∧ 128000 < 2 ^ 32 ∧ 64000 < 2 ^ 32)
    ∧ bitrateOf 256000 128000 64000 = min 256000 128000 :=
  ⟨by decide,
   (bitrate_cases 256000 128000 64000 (by decide)).2.1 (by decide) (by decide)⟩

/-- The frame returned by the identification scan bears the marker. -/
theorem findIdPage_marker (pages : List OggPage) (p : OggPage)
    (hf : findIdPage pages = some p) :
    idMarker.isPrefixOf (p.packets.headD []) = true := by
  induction pages with
  | nil => simp [findIdPage] at hf
  | cons q qs ih =>
    rw [findIdPage] at hf
    split at hf
    · next hq => cases hf; exact hq
    · next => exact ih hf

/-- C10: the identification reader stops at the first frame whose first
packet begins with the identification marker; that frame bears the
marker; if it is not flagged first-of-stream, the load path fails with
NoHeaderError before extracting anything; and when loading succeeds, every
identification field is extracted from that marker-bearing,
first-of-stream flagged frame. -/
theorem info_requires_first (pages : List OggPage) (p : OggPage)
    (hf : findIdPage pages = some p) :
    idMarker.isPrefixOf (p.packets.headD []) = true
    ∧ (p.first = false → loadInfo pages = .error .noHeader)
    ∧ (∀ info, loadInfo pages = .ok info →
        p.first = true
        ∧ info.channels = (p.packets.headD []).getD 11 0
        ∧ info.sample_rate = readLE (((p.packets.headD []).drop 12).take 4)
        ∧ info.serial = p.serial
        ∧ info.bitrate =
            bitrateOf (readLE (((p.packets.headD []).drop 16).take 4))
                      (readLE (((p.packets.headD []).drop 20).take 4))
                      (readLE (((p.packets.headD []).drop 24).take 4))) := by
  refine ⟨findIdPage_marker pages p hf, ?_, ?_⟩
  · intro hfirst
    simp [loadInfo, infoInit, hf, hfirst]
  · intro info hok
    by_cases hfirst : p.first
    · simp [loadInfo, infoInit, hf, hfirst] at hok
      subst hok
      simp [hfirst]
    · simp [loadInfo, infoInit, hf, hfirst] at hok

/-- C10 witness: a file whose identification frame is not flagged
first-of-stream is rejected by the load path, and one whose frame is
flagged yields exactly the fields of that frame. -/
theorem info_requires_first_witness :
    loadInfo [{ serial := 9, sequence := 0, position := 0, first := false,
                last := false, continued := false, complete := true,
                packets := [[1, 118, 111, 114, 98, 105, 115]] }]
      = .error .noHeader
    ∧ ({ serial := 9, sequence := 0, position := 0, first := true,
         last := false, continued := false, complete := true,
         packets := [[1, 118, 111, 114, 98, 105, 115]] } : OggPage).first
        = true :=
  ⟨(info_requires_first _ _ (by rfl)).2.1 (by rfl),
   ((info_requires_first
      [{ serial := 9, sequence := 0, position := 0, first := true,
         last := false, continued := false, complete := true,
         packets := [[1, 118, 111, 114, 98, 105, 115]] }] _ (by rfl)).2.2
      { channels := 0, sample_rate := 0, serial := 9,
        bitrate := bitrateOf 0 0 0 } (by rfl)).1⟩

/-- C2: if reassembling the collected old frames yields a packet count
other than two, inject fails with the structure error and the file is
left unchanged.  The hypotheses record that the other pre-mutation checks
(the marker scan and the gap check of reassembly) have already succeeded;
in the source no write happens before this assertion (lines 82-110 only
read, the first write is line 115), which is what `injectFile` reflects. -/
theorem inject_count_check (file : List OggPage) (md : List Nat)
    (pre region old tail : List OggPage) (pkts : List (List Nat))
    (hscan : scanComments file = .ok (pre, region, old, tail))
    (hpk : to_packets old = .ok pkts)
    (hne : pkts.length ≠ 2) :
    inject file md = .error .structureError ∧ injectFile file md = file := by
  have h1 : inject file md = .error .structureError := by
    simp [inject, hscan, hpk, hne]
  exact ⟨h1, by simp [injectFile, h1]⟩

/-- C2 witness: a file whose comment frame leaves the setup packet
unterminated reassembles to one packet, and inject rejects it without
touching the file. -/
theorem inject_count_check_witness :
    inject [{ serial := 3, sequence := 5, position := 0, first := false,
              last := false, continued := false, complete := false,
              packets := [[3, 118, 111, 114, 98, 105, 115],
                          [5, 118, 111, 114, 98, 105, 115]] }] [7]
      = .error .structureError
    ∧ injectFile [{ serial := 3, sequence := 5, position := 0, first := false,
                    last := false, continued := false, complete := false,
                    packets := [[3, 118, 111, 114, 98, 105, 115],
                                [5, 118, 111, 114, 98, 105, 115]] }] [7]
      = [{ serial := 3, sequence := 5, position := 0, first := false,
           last := false, continued := false, complete := false,
           packets := [[3, 118, 111, 114, 98, 105, 115],
                       [5, 118, 111, 114, 98, 105, 115]] }] :=
  inject_count_check _ [7] [] _ _ []
    [[3, 118, 111, 114, 98, 105, 115]] (by rfl) (by rfl) (by decide)

/-- Decomposition of the comment-marker search: the file splits into the
skipped frames, the found frame and the rest; no skipped frame bears the
comment marker at the head of its first packet, and the found frame
does.  The search does not look at serial numbers. -/
theorem findComment_spec (file : List OggPage) (pre : List OggPage)
    (st : OggPage) (rest : List OggPage)
    (h : findComment file = some (pre, st, rest)) :
    file = pre ++ st :: rest
    ∧ (∀ q ∈ pre, startsWithComment q = false)
    ∧ startsWithComment st = true := by
  induction file generalizing pre with
  | nil => simp [findComment] at h
  | cons p ps ih =>
    rw [findComment] at h
    split at h
    · next hp =>
      simp only [Option.some.injEq, Prod.mk.injEq] at h
      obtain ⟨rfl, rfl, rfl⟩ := h
      exact ⟨rfl, by simp, hp⟩
    · next hp =>
      cases hfc : findComment ps with
      | none => rw [hfc] at h; cases h
      | some trip =>
        obtain ⟨pre2, q, rest2⟩ := trip
        rw [hfc] at h
        simp only [Option.some.injEq, Prod.mk.injEq] at h
        obtain ⟨rfl, rfl, rfl⟩ := h
        obtain ⟨hdec, hall, hst⟩ := ih pre2 hfc
        refine ⟨by simp [hdec], ?_, hst⟩
        intro r hr
        rcases List.mem_cons.mp hr with hr | hr
        · subst hr; simpa using hp
        · exact hall r hr

/-- Decomposition of the collection loop: the traversed frames plus the
tail reconstitute the input, and the collected frames are exactly the
traversed frames whose serial matches. -/
theorem collectOld_spec (s : Nat) (ps reg olds tl : List OggPage)
    (h : collectOld s ps = .ok (reg, olds, tl)) :
    ps = reg ++ tl ∧ olds = reg.filter (fun p => p.serial == s) := by
  induction ps generalizing reg olds tl with
  | nil => simp [collectOld] at h
  | cons p ps2 ih =>
    rw [collectOld] at h
    split at h
    · next hp =>
      simp only [Except.ok.injEq, Prod.mk.injEq] at h
      obtain ⟨rfl, rfl, rfl⟩ := h
      constructor
      · simp
      · simp only [List.filter_cons, List.filter_nil]
        by_cases hs : p.serial = s
        · simp [hs]
        · simp [hs]
    · next hp =>
      cases hco : collectOld s ps2 with
      | error e => rw [hco] at h; cases h
      | ok trip =>
        obtain ⟨reg2, olds2, tl2⟩ := trip
        rw [hco] at h
        simp only [Except.ok.injEq, Prod.mk.injEq] at h
        obtain ⟨rfl, rfl, rfl⟩ := h
        obtain ⟨hps, holds⟩ := ih reg2 olds2 tl2 hco
        constructor
        · simp [hps]
        · simp only [List.filter_cons, holds]
          by_cases hs : p.serial = s
          · simp [hs]
          · simp [hs]

/-- Full decomposition of the pre-mutation scan: the file splits as
pre, region and tail; the region starts at the first comment-marker frame
of the file (of whatever serial); the collected old frames are exactly the
region frames whose serial matches that first frame. -/
theorem scanComments_spec (file pre region old tail : List OggPage)
    (hscan : scanComments file = .ok (pre, region, old, tail)) :
    old ≠ []
    ∧ file = pre ++ region ++ tail
    ∧ (∀ q ∈ pre, startsWithComment q = false)
    ∧ region.headD dPage = old.headD dPage
    ∧ startsWithComment (old.headD dPage) = true
    ∧ region.filter (fun p => p.serial == (old.headD dPage).serial) = old := by
  cases hfc : findComment file with
  | none => simp only [scanComments, hfc] at hscan; cases hscan
  | some trip =>
    obtain ⟨pre2, st, rest⟩ := trip
    simp only [scanComments, hfc] at hscan
    obtain ⟨hfile, hpre, hst⟩ := findComment_spec file pre2 st rest hfc
    split at hscan
    · next hset =>
      simp only [Except.ok.injEq, Prod.mk.injEq] at hscan
      obtain ⟨rfl, rfl, rfl, rfl⟩ := hscan
      refine ⟨by simp, by simpa using hfile, hpre, rfl, hst, by simp⟩
    · next hset =>
      cases hco : collectOld st.serial rest with
      | error e => simp only [hco] at hscan; cases hscan
      | ok trip2 =>
        obtain ⟨reg2, olds2, tl2⟩ := trip2
        simp only [hco, Except.ok.injEq, Prod.mk.injEq] at hscan
        obtain ⟨rfl, rfl, rfl, rfl⟩ := hscan
        obtain ⟨hrest, holds⟩ := collectOld_spec st.serial rest reg2 olds2 tl2 hco
        refine ⟨by simp, ?_, hpre, rfl, hst, ?_⟩
        · rw [hfile, hrest]; simp
        · simp only [List.headD_cons, List.filter_cons, holds]
          simp

/-- The collection loop stops exactly at the first frame, of any serial,
whose final packet begins with the setup marker: the last traversed frame
bears it and no earlier traversed frame does. -/
theorem collectOld_stop (s : Nat) (ps reg olds tl : List OggPage)
    (h : collectOld s ps = .ok (reg, olds, tl)) :
    reg ≠ []
    ∧ lastIsSetup (reg.getLastD dPage) = true
    ∧ ∀ q ∈ reg.dropLast, lastIsSetup q = false := by
  induction ps generalizing reg olds tl with
  | nil => simp [collectOld] at h
  | cons p ps2 ih =>
    rw [collectOld] at h
    split at h
    · next hp =>
      simp only [Except.ok.injEq, Prod.mk.injEq] at h
      obtain ⟨rfl, rfl, rfl⟩ := h
      exact ⟨by simp, by simpa using hp, by simp⟩
    · next hp =>
      cases hco : collectOld s ps2 with
      | error e => rw [hco] at h; cases h
      | ok trip =>
        obtain ⟨reg2, olds2, tl2⟩ := trip
        rw [hco] at h
        simp only [Except.ok.injEq, Prod.mk.injEq] at h
        obtain ⟨rfl, rfl, rfl⟩ := h
        obtain ⟨hne2, hlast, hall⟩ := ih reg2 olds2 tl2 hco
        obtain ⟨x, xs, rfl⟩ := List.exists_cons_of_ne_nil hne2
        refine ⟨by simp, ?_, ?_⟩
        · simpa [List.getLastD_cons] using hlast
        · intro q hq
          rw [List.dropLast_cons₂] at hq
          rcases List.mem_cons.mp hq with hq | hq
          · rw [hq]; simpa using hp
          · exact hall q hq

/-- The traversed region of the scan is nonempty, ends at the first frame
(of any serial) whose final packet begins with the setup marker, and no
earlier region frame bears that marker at the end of its chunk list. -/
theorem scanComments_stop (file pre region old tail : List OggPage)
    (hscan : scanComments file = .ok (pre, region, old, tail)) :
    region ≠ []
    ∧ lastIsSetup (region.getLastD dPage) = true
    ∧ ∀ q ∈ region.dropLast, lastIsSetup q = false := by
  cases hfc : findComment file with
  | none => simp only [scanComments, hfc] at hscan; cases hscan
  | some trip =>
    obtain ⟨pre2, st, rest⟩ := trip
    simp only [scanComments, hfc] at hscan
    split at hscan
    · next hset =>
      simp only [Except.ok.injEq, Prod.mk.injEq] at hscan
      obtain ⟨rfl, rfl, rfl, rfl⟩ := hscan
      exact ⟨by simp, by simpa using hset, by simp⟩
    · next hset =>
      cases hco : collectOld st.serial rest with
      | error e => simp only [hco] at hscan; cases hscan
      | ok trip2 =>
        obtain ⟨reg2, olds2, tl2⟩ := trip2
        simp only [hco, Except.ok.injEq, Prod.mk.injEq] at hscan
        obtain ⟨rfl, rfl, rfl, rfl⟩ := hscan
        obtain ⟨hne2, hlast, hall⟩ :=
          collectOld_stop st.serial rest reg2 olds2 tl2 hco
        obtain ⟨x, xs, rfl⟩ := List.exists_cons_of_ne_nil hne2
        refine ⟨by simp, ?_, ?_⟩
        · simpa [List.getLastD_cons] using hlast
        · intro q hq
          rw [List.dropLast_cons₂] at hq
          rcases List.mem_cons.mp hq with hq | hq
          · rw [hq]; simpa using hset
          · exact hall q hq

/-- C3 amended: the initial scan of inject searches frames of every
serial and selects the first frame in the file whose first packet begins
with the comment marker, whatever its serial; the target serial is then
defined as the serial of that frame.  The collection into OLD-FRAMES is
restricted to that serial, but its termination likewise ignores serials:
the traversed region ends at the first frame of any serial whose final
packet begins with the setup marker, and at no earlier frame, and
OLD-FRAMES are exactly the target-serial frames of that region.  (The
claim as frozen fails on both counts, see the counterexample: a frame of
a different serial bearing the comment marker is selected as the start of
OLD-FRAMES, and a setup-marker frame of a different serial stops the
collection before the target-serial setup frame, so OLD-FRAMES need not
end at a setup-packet frame.) -/
theorem inject_scan_unfiltered (file pre region old tail : List OggPage)
    (hscan : scanComments file = .ok (pre, region, old, tail)) :
    (∀ q ∈ pre, startsWithComment q = false)
    ∧ startsWithComment (old.headD dPage) = true
    ∧ file = pre ++ region ++ tail
    ∧ old ≠ []
    ∧ (∀ q ∈ old, q.serial = (old.headD dPage).serial)
    ∧ region.filter (fun p => p.serial == (old.headD dPage).serial) = old
    ∧ region ≠ []
    ∧ lastIsSetup (region.getLastD dPage) = true
    ∧ (∀ q ∈ region.dropLast, lastIsSetup q = false) := by
  obtain ⟨hne, hfile, hpre, hhead, hmark, hfilter⟩ :=
    scanComments_spec file pre region old tail hscan
  obtain ⟨hrne, hrlast, hrall⟩ :=
    scanComments_stop file pre region old tail hscan
  refine ⟨hpre, hmark, hfile, hne, ?_, hfilter, hrne, hrlast, hrall⟩
  intro q hq
  rw [← hfilter] at hq
  have h2 := List.of_mem_filter hq
  simpa using h2

/-- C3 counterexample, refuting both halves of the claim.  First file:
the Vorbis stream has serial 1, yet a serial-2 frame whose first packet
begins with the comment marker and which appears earlier is selected as
the start of OLD-FRAMES (the search is not restricted to the target
serial).  Second file: a serial-2 frame whose final packet begins with
the setup marker stops the collection, so OLD-FRAMES is just the
serial-1 comment frame, whose last packet is not the setup packet, while
the true serial-1 setup frame is left in the tail (the collection does
not run up to and including the target-serial setup frame). -/
theorem scan_picks_other_serial_cex :
    (loadInfo
        [{ serial := 1, sequence := 0, position := 0, first := true,
           last := false, continued := false, complete := true,
           packets := [[1, 118, 111, 114, 98, 105, 115]] },
         { serial := 2, sequence := 0, position := 0, first := false,
           last := false, continued := false, complete := true,
           packets := [[3, 118, 111, 114, 98, 105, 115, 9],
                       [5, 118, 111, 114, 98, 105, 115]] },
         { serial := 1, sequence := 1, position := 0, first := false,
           last := false, continued := false, complete := true,
           packets := [[3, 118, 111, 114, 98, 105, 115, 8],
                       [5, 118, 111, 114, 98, 105, 115]] }]).map
      (fun i => i.serial) = .ok 1
    ∧ scanComments
        [{ serial := 1, sequence := 0, position := 0, first := true,
           last := false, continued := false, complete := true,
           packets := [[1, 118, 111, 114, 98, 105, 115]] },
         { serial := 2, sequence := 0, position := 0, first := false,
           last := false, continued := false, complete := true,
           packets := [[3, 118, 111, 114, 98, 105, 115, 9],
                       [5, 118, 111, 114, 98, 105, 115]] },
         { serial := 1, sequence := 1, position := 0, first := false,
           last := false, continued := false, complete := true,
           packets := [[3, 118, 111, 114, 98, 105, 115, 8],
                       [5, 118, 111, 114, 98, 105, 115]] }]
      = .ok ([{ serial := 1, sequence := 0, position := 0, first := true,
                last := false, continued := false, complete := true,
                packets := [[1, 118, 111, 114, 98, 105, 115]] }],
             [{ serial := 2, sequence := 0, position := 0, first := false,
                last := false, continued := false, complete := true,
                packets := [[3, 118, 111, 114, 98, 105, 115, 9],
                            [5, 118, 111, 114, 98, 105, 115]] }],
             [{ serial := 2, sequence := 0, position := 0, first := false,
                last := false, continued := false, complete := true,
                packets := [[3, 118, 111, 114, 98, 105, 115, 9],
                            [5, 118, 111, 114, 98, 105, 115]] }],
             [{ serial := 1, sequence := 1, position := 0, first := false,
                last := false, continued := false, complete := true,
                packets := [[3, 118, 111, 114, 98, 105, 115, 8],
                            [5, 118, 111, 114, 98, 105, 115]] }])
    ∧ (2 : Nat) ≠ 1
    ∧ scanComments
        [{ serial := 1, sequence := 1, position := 0, first := false,
           last := false, continued := false, complete := false,
           packets := [[3, 118, 111, 114, 98, 105, 115, 70]] },
         { serial := 2, sequence := 9, position := 0, first := false,
           last := false, continued := false, complete := true,
           packets := [[5, 118, 111, 114, 98, 105, 115]] },
         { serial := 1, sequence := 2, position := 0, first := false,
           last := false, continued := false, complete := true,
           packets := [[5, 118, 111, 114, 98, 105, 115]] }]
      = .ok ([],
             [{ serial := 1, sequence := 1, position := 0, first := false,
                last := false, continued := false, complete := false,
                packets := [[3, 118, 111, 114, 98, 105, 115, 70]] },
              { serial := 2, sequence := 9, position := 0, first := false,
                last := false, continued := false, complete := true,
                packets := [[5, 118, 111, 114, 98, 105, 115]] }],
             [{ serial := 1, sequence := 1, position := 0, first := false,
                last := false, continued := false, complete := false,
                packets := [[3, 118, 111, 114, 98, 105, 115, 70]] }],
             [{ serial := 1, sequence := 2, position := 0, first := false,
                last := false, continued := false, complete := true,
                packets := [[5, 118, 111, 114, 98, 105, 115]] }])
    ∧ lastIsSetup
        (([{ serial := 1, sequence := 1, position := 0, first := false,
             last := false, continued := false, complete := false,
             packets := [[3, 118, 111, 114, 98, 105, 115, 70]] }] :
           List OggPage).getLastD dPage) = false := by
  refine ⟨by rfl, by rfl, by decide, by rfl, by decide⟩

/-- C3 amended witness: the amended scan description applied to a
concrete single-frame comment region. -/
theorem inject_scan_unfiltered_witness :
    (∀ q ∈ ([] : List OggPage), startsWithComment q = false)
    ∧ startsWithComment
        (([{ serial := 4, sequence := 0, position := 0, first := false,
             last := false, continued := false, complete := true,
             packets := [[3, 118, 111, 114, 98, 105, 115],
                         [5, 118, 111, 114, 98, 105, 115]] }] :
           List OggPage).headD dPage) = true
    ∧ ([{ serial := 4, sequence := 0, position := 0, first := false,
          last := false, continued := false, complete := true,
          packets := [[3, 118, 111, 114, 98, 105, 115],
                      [5, 118, 111, 114, 98, 105, 115]] }] : List OggPage)
        = [] ++ [{ serial := 4, sequence := 0, position := 0, first := false,
                   last := false, continued := false, complete := true,
                   packets := [[3, 118, 111, 114, 98, 105, 115],
                               [5, 118, 111, 114, 98, 105, 115]] }] ++ []
    ∧ ([{ serial := 4, sequence := 0, position := 0, first := false,
          last := false, continued := false, complete := true,
          packets := [[3, 118, 111, 114, 98, 105, 115],
                      [5, 118, 111, 114, 98, 105, 115]] }] : List OggPage) ≠ []
    ∧ (∀ q ∈ ([{ serial := 4, sequence := 0, position := 0, first := false,
                 last := false, continued := false, complete := true,
                 packets := [[3, 118, 111, 114, 98, 105, 115],
                             [5, 118, 111, 114, 98, 105, 115]] }] :
               List OggPage),
         q.serial =
           (([{ serial := 4, sequence := 0, position := 0, first := false,
                last := false, continued := false, complete := true,
                packets := [[3, 118, 111, 114, 98, 105, 115],
                            [5, 118, 111, 114, 98, 105, 115]] }] :
              List OggPage).headD dPage).serial)
    ∧ ([{ serial := 4, sequence := 0, position := 0, first := false,
          last := false, continued := false, complete := true,
          packets := [[3, 118, 111, 114, 98, 105, 115],
                      [5, 118, 111, 114, 98, 105, 115]] }] :
         List OggPage).filter
        (fun p => p.serial ==
          (([{ serial := 4, sequence := 0, position := 0, first := false,
               last := false, continued := false, complete := true,
               packets := [[3, 118, 111, 114, 98, 105, 115],
                           [5, 118, 111, 114, 98, 105, 115]] }] :
             List OggPage).headD dPage).serial)
        = [{ serial := 4, sequence := 0, position := 0, first := false,
             last := false, continued := false, complete := true,
             packets := [[3, 118, 111, 114, 98, 105, 115],
                         [5, 118, 111, 114, 98, 105, 115]] }]
    ∧ ([{ serial := 4, sequence := 0, position := 0, first := false,
          last := false, continued := false, complete := true,
          packets := [[3, 118, 111, 114, 98, 105, 115],
                      [5, 118, 111, 114, 98, 105, 115]] }] : List OggPage) ≠ []
    ∧ lastIsSetup
        (([{ serial := 4, sequence := 0, position := 0, first := false,
             last := false, continued := false, complete := true,
             packets := [[3, 118, 111, 114, 98, 105, 115],
                         [5, 118, 111, 114, 98, 105, 115]] }] :
           List OggPage).getLastD dPage) = true
    ∧ (∀ q ∈ ([{ serial := 4, sequence := 0, position := 0, first := false,
                 last := false, continued := false, complete := true,
                 packets := [[3, 118, 111, 114, 98, 105, 115],
                             [5, 118, 111, 114, 98, 105, 115]] }] :
               List OggPage).dropLast,
         lastIsSetup q = false) :=
  inject_scan_unfiltered _ [] _ _ [] (by rfl)

/-- Frames produced for one packet never carry the is-first or is-last
flag. -/
theorem mkPacketFrames_flags (cs : List (List Nat)) (b : Bool) :
    ∀ p ∈ mkPacketFrames cs b, p.first = false ∧ p.last = false := by
  induction cs generalizing b with
  | nil => intro p hp; simp [mkPacketFrames] at hp
  | cons c cs2 ih =>
    intro p hp
    cases cs2 with
    | nil =>
      simp only [mkPacketFrames, List.mem_singleton] at hp
      subst hp; exact ⟨rfl, rfl⟩
    | cons c2 rest =>
      rw [mkPacketFrames] at hp
      rcases List.mem_cons.mp hp with h | h
      · subst h; exact ⟨rfl, rfl⟩
      · exact ih false p h

/-- Numbering frames preserves the is-first and is-last flags. -/
theorem numberFrames_flags (q : Nat) (l : List OggPage)
    (h : ∀ p ∈ l, p.first = false ∧ p.last = false) :
    ∀ p ∈ numberFrames q l, p.first = false ∧ p.last = false := by
  induction l generalizing q with
  | nil => intro p hp; simp [numberFrames] at hp
  | cons a l2 ih =>
    intro p hp
    rw [numberFrames] at hp
    rcases List.mem_cons.mp hp with hq | hq
    · rw [hq]
      exact h a (by simp)
    · exact ih (q + 1) (fun r hr => h r (by simp [hr])) p hq

/-- Overwriting the completeness flag of the final frame preserves the
is-first and is-last flags. -/
theorem setLastComplete_flags (c : Bool) (l : List OggPage)
    (h : ∀ p ∈ l, p.first = false ∧ p.last = false) :
    ∀ p ∈ setLastComplete c l, p.first = false ∧ p.last = false := by
  induction l with
  | nil => intro p hp; simp [setLastComplete] at hp
  | cons a l2 ih =>
    intro p hp
    cases l2 with
    | nil =>
      simp only [setLastComplete, List.mem_singleton] at hp
      rw [hp]
      exact ⟨(h a (by simp)).1, (h a (by simp)).2⟩
    | cons b2 t =>
      rw [setLastComplete] at hp
      rcases List.mem_cons.mp hp with hq | hq
      · rw [hq]; exact h a (by simp)
      · exact ih (fun r hr => h r (by simp [hr])) p hq

/-- Overwriting the completeness flag of the final frame of a nonempty
list indeed sets that flag on the final frame. -/
theorem setLastComplete_getLast (c : Bool) (l : List OggPage) (hne : l ≠ []) :
    ((setLastComplete c l).getLastD dPage).complete = c := by
  induction l with
  | nil => exact absurd rfl hne
  | cons a l2 ih =>
    cases l2 with
    | nil => simp [setLastComplete]
    | cons b2 t =>
      rw [setLastComplete]
      have h2 : setLastComplete c (b2 :: t) ≠ [] := by
        cases t <;> simp [setLastComplete]
      calc ((a :: setLastComplete c (b2 :: t)).getLastD dPage).complete
          = ((setLastComplete c (b2 :: t)).getLastD dPage).complete := by
            rw [List.getLastD_cons]
            cases hsc : setLastComplete c (b2 :: t) with
            | nil => exact absurd hsc h2
            | cons x xs => simp [List.getLastD]
        _ = c := ih (by simp)

/-- The frame list produced for a packet is never empty. -/
theorem framesForPacket_ne_nil (bytes : List Nat) :
    framesForPacket bytes ≠ [] := by
  rw [framesForPacket]
  have h1 : ∀ (sizes : List Nat) (bs : List Nat), (splitBySizes sizes bs).length = sizes.length := by
    intro sizes
    induction sizes with
    | nil => intro bs; simp [splitBySizes]
    | cons s rest ih => intro bs; simp [splitBySizes, ih]
  have h2 : ∀ (cs : List (List Nat)) (b : Bool), (mkPacketFrames cs b).length = cs.length := by
    intro cs
    induction cs with
    | nil => intro b; simp [mkPacketFrames]
    | cons c cs2 ih =>
      intro b
      cases cs2 with
      | nil => simp [mkPacketFrames]
      | cons c2 rest => rw [mkPacketFrames]; simp [ih]
  intro hcon
  have := congrArg List.length hcon
  rw [h2] at this
  rw [h1] at this
  simp at this

/-- Length of a numbered frame list. -/
theorem numberFrames_length (q : Nat) (l : List OggPage) :
    (numberFrames q l).length = l.length := by
  induction l generalizing q with
  | nil => rfl
  | cons a t ih => rw [numberFrames]; simp [ih]

/-- Length is preserved by overwriting the final completeness flag. -/
theorem setLastComplete_length (c : Bool) (l : List OggPage) :
    (setLastComplete c l).length = l.length := by
  induction l with
  | nil => rfl
  | cons a t ih =>
    cases t with
    | nil => rfl
    | cons b2 t2 => rw [setLastComplete]; simp only [List.length_cons, ih]

/-- Fragmented packet frames never carry the is-first or is-last flag. -/
theorem framesForPacket_flags (bytes : List Nat) :
    ∀ p ∈ framesForPacket bytes, p.first = false ∧ p.last = false := by
  rw [framesForPacket]; exact mkPacketFrames_flags _ _

/-- No frame built by the inject refragmentation carries the is-first or
is-last flag. -/
theorem buildNewPages_flags (old : List OggPage) (md : List Nat)
    (pkts : List (List Nat)) :
    ∀ p ∈ buildNewPages old md pkts, p.first = false ∧ p.last = false := by
  rw [buildNewPages]
  apply setLastComplete_flags
  intro p hp
  rcases List.mem_map.mp hp with ⟨p0, hp0, hmapeq⟩
  rw [from_packets] at hp0
  have hbase : ∀ r ∈ (([commentMarker ++ md, pkts.getD 1 []].map
      framesForPacket).flatten), r.first = false ∧ r.last = false := by
    intro r hr
    rcases List.mem_flatten.mp hr with ⟨l, hl, hrl⟩
    rcases List.mem_map.mp hl with ⟨b, _, hbeq⟩
    exact framesForPacket_flags b r (hbeq ▸ hrl)
  have h0 := numberFrames_flags _ _ hbase p0 hp0
  rw [← hmapeq]
  exact ⟨h0.1, h0.2⟩

/-- The inject refragmentation always yields at least one frame. -/
theorem buildNewPages_inner_ne_nil (old : List OggPage) (md : List Nat)
    (pkts : List (List Nat)) :
    ((from_packets [commentMarker ++ md, pkts.getD 1 []]
        (old.headD dPage).sequence).map
      (fun p => { p with serial := (old.headD dPage).serial })) ≠ [] := by
  intro hc
  have hlen := congrArg List.length hc
  rw [List.length_map, from_packets, numberFrames_length] at hlen
  simp only [List.map_cons, List.map_nil, List.flatten_cons, List.flatten_nil,
    List.length_append, List.length_nil] at hlen
  have h0 := List.length_pos.mpr (framesForPacket_ne_nil (commentMarker ++ md))
  omega

/-- C5 amended: the final new frame of inject receives the
last-packet-complete flag of the final old frame (source line 109 copies
the completeness flag, not the is-last-of-stream flag), and no new frame
carries the is-first or the is-last-of-stream flag.  (The claim as frozen
says the is-last-of-stream flag is preserved; the counterexample below
refutes that.) -/
theorem inject_last_flag_amended (file : List OggPage) (md : List Nat)
    (pre region old tail nps : List OggPage)
    (hscan : scanComments file = .ok (pre, region, old, tail))
    (hn : newPagesOf file md = some nps) :
    (nps.getLastD dPage).complete = (old.getLastD dPage).complete
    ∧ ∀ p ∈ nps, p.first = false ∧ p.last = false := by
  unfold newPagesOf at hn
  rw [hscan] at hn
  dsimp only at hn
  cases hpk : to_packets old with
  | error e => rw [hpk] at hn; dsimp only at hn; cases hn
  | ok pkts =>
    rw [hpk] at hn
    dsimp only at hn
    split at hn
    · next hlen =>
      simp only [Option.some.injEq] at hn
      subst hn
      refine ⟨?_, buildNewPages_flags old md pkts⟩
      rw [buildNewPages]
      exact setLastComplete_getLast _ _ (buildNewPages_inner_ne_nil old md pkts)
    · next => cases hn

/-- C5 counterexample: a file whose final old frame carries the
is-last-of-stream flag; the final frame built by inject does not carry
it, so the claimed flag preservation fails (the code copies the
completeness flag instead). -/
theorem inject_last_flag_cex :
    newPagesOf
        [{ serial := 1, sequence := 0, position := 0, first := false,
           last := true, continued := false, complete := true,
           packets := [[3, 118, 111, 114, 98, 105, 115, 97],
                       [5, 118, 111, 114, 98, 105, 115]] }] [97]
      = some
        [{ serial := 1, sequence := 0, position := 0, first := false,
           last := false, continued := false, complete := true,
           packets := [[3, 118, 111, 114, 98, 105, 115, 97]] },
         { serial := 1, sequence := 1, position := 0, first := false,
           last := false, continued := false, complete := true,
           packets := [[5, 118, 111, 114, 98, 105, 115]] }]
    ∧ ({ serial := 1, sequence := 0, position := 0, first := false,
         last := true, continued := false, complete := true,
         packets := [[3, 118, 111, 114, 98, 105, 115, 97],
                     [5, 118, 111, 114, 98, 105, 115]] } : OggPage).last
        = true
    ∧ ({ serial := 1, sequence := 1, position := 0, first := false,
         last := false, continued := false, complete := true,
         packets := [[5, 118, 111, 114, 98, 105, 115]] } : OggPage).last
        = false := by
  exact ⟨by rfl, rfl, rfl⟩

/-- C5 amended witness: the amended flag behaviour at a concrete file. -/
theorem inject_last_flag_amended_witness :
    (([{ serial := 6, sequence := 2, position := 0, first := false,
         last := false, continued := false, complete := true,
         packets := [[3, 118, 111, 114, 98, 105, 115, 98]] },
       { serial := 6, sequence := 3, position := 0, first := false,
         last := false, continued := false, complete := true,
         packets := [[5, 118, 111, 114, 98, 105, 115]] }] :
        List OggPage).getLastD dPage).complete
      = (([{ serial := 6, sequence := 2, position := 0, first := false,
             last := false, continued := false, complete := true,
             packets := [[3, 118, 111, 114, 98, 105, 115, 98],
                         [5, 118, 111, 114, 98, 105, 115]] }] :
           List OggPage).getLastD dPage).complete
    ∧ ∀ p ∈ ([{ serial := 6, sequence := 2, position := 0, first := false,
                last := false, continued := false, complete := true,
                packets := [[3, 118, 111, 114, 98, 105, 115, 98]] },
              { serial := 6, sequence := 3, position := 0, first := false,
                last := false, continued := false, complete := true,
                packets := [[5, 118, 111, 114, 98, 105, 115]] }] :
               List OggPage),
        p.first = false ∧ p.last = false :=
  inject_last_flag_amended
    [{ serial := 6, sequence := 2, position := 0, first := false,
       last := false, continued := false, complete := true,
       packets := [[3, 118, 111, 114, 98, 105, 115, 98],
                   [5, 118, 111, 114, 98, 105, 115]] }]
    [98] []
    [{ serial := 6, sequence := 2, position := 0, first := false,
       last := false, continued := false, complete := true,
       packets := [[3, 118, 111, 114, 98, 105, 115, 98],
                   [5, 118, 111, 114, 98, 105, 115]] }]
    [{ serial := 6, sequence := 2, position := 0, first := false,
       last := false, continued := false, complete := true,
       packets := [[3, 118, 111, 114, 98, 105, 115, 98],
                   [5, 118, 111, 114, 98, 105, 115]] }]
    []
    [{ serial := 6, sequence := 2, position := 0, first := false,
       last := false, continued := false, complete := true,
       packets := [[3, 118, 111, 114, 98, 105, 115, 98]] },
     { serial := 6, sequence := 3, position := 0, first := false,
       last := false, continued := false, complete := true,
       packets := [[5, 118, 111, 114, 98, 105, 115]] }]
    (by rfl) (by rfl)

/-- Splitting a byte string by sizes that sum to its length and
reconcatenating gives the byte string back. -/
theorem splitBySizes_flatten (sizes : List Nat) (bytes : List Nat)
    (hsum : sizes.sum = bytes.length) :
    (splitBySizes sizes bytes).flatten = bytes := by
  induction sizes generalizing bytes with
  | nil =>
    simp only [List.sum_nil] at hsum
    simp [splitBySizes, (List.length_eq_zero.mp hsum.symm)]
  | cons s rest ih =>
    simp only [List.sum_cons] at hsum
    rw [splitBySizes]
    simp only [List.flatten_cons]
    rw [ih (bytes.drop s) (by simp [List.length_drop]; omega)]
    exact List.take_append_drop s bytes

/-- The payloads of the frames built for a chunk list are the chunks. -/
theorem mkPacketFrames_payloads (cs : List (List Nat)) (b : Bool) :
    (mkPacketFrames cs b).map pagePayload = cs := by
  induction cs generalizing b with
  | nil => rfl
  | cons c cs2 ih =>
    cases cs2 with
    | nil => simp [mkPacketFrames, pagePayload]
    | cons c2 rest =>
      rw [mkPacketFrames]
      simp only [List.map_cons, ih false]
      simp [pagePayload]

/-- Reconcatenating the payloads of the frames built for one packet gives
the packet bytes back. -/
theorem framesForPacket_flatten (bytes : List Nat) :
    ((framesForPacket bytes).map pagePayload).flatten = bytes := by
  rw [framesForPacket, mkPacketFrames_payloads]
  apply splitBySizes_flatten
  have hd := Nat.div_add_mod bytes.length 65025
  simp only [List.sum_append, List.sum_replicate, List.sum_cons, List.sum_nil,
    smul_eq_mul]
  omega

/-- Numbering preserves the frame payloads. -/
theorem numberFrames_payloads (q : Nat) (l : List OggPage) :
    (numberFrames q l).map pagePayload = l.map pagePayload := by
  induction l generalizing q with
  | nil => rfl
  | cons a t ih => rw [numberFrames]; simp only [List.map_cons, ih]; rfl

/-- Overwriting the final completeness flag preserves the frame
payloads. -/
theorem setLastComplete_payloads (c : Bool) (l : List OggPage) :
    (setLastComplete c l).map pagePayload = l.map pagePayload := by
  induction l with
  | nil => rfl
  | cons a t ih =>
    cases t with
    | nil => simp [setLastComplete, pagePayload]
    | cons b2 t2 => rw [setLastComplete]; simp only [List.map_cons, ih]

/-- Numbering distributes over append. -/
theorem numberFrames_append (q : Nat) (l1 l2 : List OggPage) :
    numberFrames q (l1 ++ l2)
      = numberFrames q l1 ++ numberFrames (q + l1.length) l2 := by
  induction l1 generalizing q with
  | nil => simp [numberFrames]
  | cons a t ih =>
    simp only [List.cons_append, numberFrames, List.length_cons,
      List.append_eq]
    rw [ih (q + 1)]
    have hq : q + 1 + t.length = q + (t.length + 1) := by omega
    rw [hq]

/-- Overwriting the final completeness flag only touches the second block
of an append with nonempty second block. -/
theorem setLastComplete_append (c : Bool) (l1 l2 : List OggPage)
    (h2 : l2 ≠ []) :
    setLastComplete c (l1 ++ l2) = l1 ++ setLastComplete c l2 := by
  induction l1 with
  | nil => simp
  | cons a t ih =>
    cases hl : t ++ l2 with
    | nil =>
      exact absurd (List.append_eq_nil.mp hl).2 h2
    | cons b2 t2 =>
      simp only [List.cons_append, hl, setLastComplete]
      rw [← hl, ih]

/-- The shape of the frames built by inject: a block for the metadata
packet followed by a block for the setup packet. -/
theorem buildNewPages_shape (old : List OggPage) (md : List Nat)
    (pkts : List (List Nat)) :
    ∃ a b, buildNewPages old md pkts = a ++ b ∧ a ≠ [] ∧ b ≠ []
      ∧ (a.map pagePayload).flatten = commentMarker ++ md
      ∧ (b.map pagePayload).flatten = pkts.getD 1 [] := by
  rw [buildNewPages, from_packets]
  simp only [List.map_cons, List.map_nil, List.flatten_cons, List.flatten_nil,
    List.append_nil]
  rw [numberFrames_append, List.map_append]
  have hY : ((numberFrames
        ((old.headD dPage).sequence + (framesForPacket (commentMarker ++ md)).length)
        (framesForPacket (pkts.getD 1 []))).map
      (fun p => { p with serial := (old.headD dPage).serial })) ≠ [] := by
    intro hc
    have := congrArg List.length hc
    rw [List.length_map, numberFrames_length] at this
    exact framesForPacket_ne_nil _ (List.length_eq_zero.mp this)
  rw [setLastComplete_append _ _ _ hY]
  refine ⟨_, _, rfl, ?_, ?_, ?_, ?_⟩
  · intro hc
    have := congrArg List.length hc
    rw [List.length_map, numberFrames_length] at this
    exact framesForPacket_ne_nil _ (List.length_eq_zero.mp this)
  · intro hc
    have := congrArg List.length hc
    rw [setLastComplete_length, List.length_map, numberFrames_length] at this
    exact framesForPacket_ne_nil _ (List.length_eq_zero.mp this)
  · have h1 : ∀ (l : List OggPage) (s : Nat),
        ((l.map (fun p => { p with serial := s })).map pagePayload)
          = l.map pagePayload := by
      intro l s
      rw [List.map_map]
      rfl
    rw [h1, numberFrames_payloads, framesForPacket_flatten]
  · have h1 : ∀ (l : List OggPage) (s : Nat),
        ((l.map (fun p => { p with serial := s })).map pagePayload)
          = l.map pagePayload := by
      intro l s
      rw [List.map_map]
      rfl
    rw [setLastComplete_payloads, h1, numberFrames_payloads,
      framesForPacket_flatten]

/-- C4: for every successful inject, the new frames split into a nonempty
initial block whose payloads reconcatenate to exactly the new metadata
packet and a nonempty final block whose payloads reconcatenate to exactly
the carried-through setup packet: the forced break at the packet 0/1
boundary means no single frame holds bytes of both packets. -/
theorem inject_no_packet_merge (file : List OggPage) (md : List Nat)
    (pre region old tail nps : List OggPage) (pkts : List (List Nat))
    (hscan : scanComments file = .ok (pre, region, old, tail))
    (hpk : to_packets old = .ok pkts)
    (hn : newPagesOf file md = some nps) :
    ∃ a b, nps = a ++ b ∧ a ≠ [] ∧ b ≠ []
      ∧ (a.map pagePayload).flatten = commentMarker ++ md
      ∧ (b.map pagePayload).flatten = pkts.getD 1 [] := by
  unfold newPagesOf at hn
  rw [hscan] at hn
  dsimp only at hn
  rw [hpk] at hn
  dsimp only at hn
  split at hn
  · next hlen =>
    simp only [Option.some.injEq] at hn
    subst hn
    exact buildNewPages_shape old md pkts
  · next => cases hn

/-- C4 witness: the packet-separation split at a concrete file. -/
theorem inject_no_packet_merge_witness :
    ∃ a b,
      ([{ serial := 2, sequence := 0, position := 0, first := false,
          last := false, continued := false, complete := true,
          packets := [[3, 118, 111, 114, 98, 105, 115, 55]] },
        { serial := 2, sequence := 1, position := 0, first := false,
          last := false, continued := false, complete := true,
          packets := [[5, 118, 111, 114, 98, 105, 115]] }] : List OggPage)
        = a ++ b
      ∧ a ≠ [] ∧ b ≠ []
      ∧ (a.map pagePayload).flatten = commentMarker ++ [55]
      ∧ (b.map pagePayload).flatten
          = ([[3, 118, 111, 114, 98, 105, 115, 55],
              [5, 118, 111, 114, 98, 105, 115]] :
              List (List Nat)).getD 1 [] :=
  inject_no_packet_merge
    [{ serial := 2, sequence := 0, position := 0, first := false,
       last := false, continued := false, complete := true,
       packets := [[3, 118, 111, 114, 98, 105, 115, 55],
                   [5, 118, 111, 114, 98, 105, 115]] }]
    [55] []
    [{ serial := 2, sequence := 0, position := 0, first := false,
       last := false, continued := false, complete := true,
       packets := [[3, 118, 111, 114, 98, 105, 115, 55],
                   [5, 118, 111, 114, 98, 105, 115]] }]
    [{ serial := 2, sequence := 0, position := 0, first := false,
       last := false, continued := false, complete := true,
       packets := [[3, 118, 111, 114, 98, 105, 115, 55],
                   [5, 118, 111, 114, 98, 105, 115]] }]
    []
    [{ serial := 2, sequence := 0, position := 0, first := false,
       last := false, continued := false, complete := true,
       packets := [[3, 118, 111, 114, 98, 105, 115, 55]] },
     { serial := 2, sequence := 1, position := 0, first := false,
       last := false, continued := false, complete := true,
       packets := [[5, 118, 111, 114, 98, 105, 115]] }]
    [[3, 118, 111, 114, 98, 105, 115, 55],
     [5, 118, 111, 114, 98, 105, 115]]
    (by rfl) (by rfl) (by rfl)

/-- Contiguity holds of every arithmetic run. -/
theorem isContig_range' (s n : Nat) : isContig (List.range' s n) = true := by
  induction n generalizing s with
  | zero => rfl
  | succ m ih =>
    cases m with
    | zero => rfl
    | succ k =>
      rw [List.range'_succ, List.range'_succ, isContig]
      simp only [beq_self_eq_true, Bool.true_and]
      have h1 := ih (s + 1)
      rw [List.range'_succ] at h1
      exact h1

/-- A contiguous list is the arithmetic run starting at its head. -/
theorem isContig_eq_range' (l : List Nat) (h : isContig l = true) :
    l = List.range' (l.headD 0) l.length := by
  induction l with
  | nil => rfl
  | cons a t ih =>
    cases t with
    | nil => rfl
    | cons b t2 =>
      rw [isContig] at h
      obtain ⟨hb, ht⟩ := (Bool.and_eq_true _ _).mp h
      have hb2 : b = a + 1 := by simpa using hb
      have h2 := ih ht
      simp only [List.headD_cons, List.length_cons] at h2
      simp only [List.headD_cons, List.length_cons]
      rw [List.range'_succ]
      rw [← hb2, ← h2]

/-- Renumbering leaves frames of other serials unchanged. -/
theorem renumber_filter_ne (s q : Nat) (l : List OggPage) :
    (renumber s q l).filter (fun p => p.serial != s)
      = l.filter (fun p => p.serial != s) := by
  induction l generalizing q with
  | nil => rfl
  | cons a t ih =>
    rw [renumber]
    by_cases ha : a.serial = s
    · rw [if_pos ha]
      simp only [List.filter_cons]
      simp [ha, ih]
    · rw [if_neg ha]
      simp only [List.filter_cons]
      simp [ha, ih]

/-- Renumbering gives the frames of the target serial the consecutive
sequence numbers from the start value. -/
theorem renumber_filter_eq_seqs (s q : Nat) (l : List OggPage) :
    ((renumber s q l).filter (fun p => p.serial == s)).map
        (fun p => p.sequence)
      = List.range' q ((l.filter (fun p => p.serial == s)).length) := by
  induction l generalizing q with
  | nil => rfl
  | cons a t ih =>
    rw [renumber]
    by_cases ha : a.serial = s
    · rw [if_pos ha]
      simp only [List.filter_cons]
      simp [ha, ih, List.range'_succ]
    · rw [if_neg ha]
      simp only [List.filter_cons]
      simp [ha, ih]

/-- Renumbering changes nothing but the sequence field of the target
frames. -/
theorem renumber_filter_eq_strip (s q : Nat) (l : List OggPage) :
    ((renumber s q l).filter (fun p => p.serial == s)).map stripSeq
      = (l.filter (fun p => p.serial == s)).map stripSeq := by
  induction l generalizing q with
  | nil => rfl
  | cons a t ih =>
    rw [renumber]
    by_cases ha : a.serial = s
    · rw [if_pos ha]
      simp only [List.filter_cons]
      simp [ha, ih, stripSeq]
    · rw [if_neg ha]
      simp only [List.filter_cons]
      simp [ha, ih]

/-- Frames already excluded by serial stay excluded. -/
theorem filter_ne_then_eq (s : Nat) (l : List OggPage) :
    (l.filter (fun p => p.serial != s)).filter (fun p => p.serial == s)
      = [] := by
  induction l with
  | nil => rfl
  | cons a t ih =>
    by_cases ha : a.serial = s
    · simp [List.filter_cons, ha, ih]
    · simp [List.filter_cons, ha, ih]

/-- Filtering by the complement twice is idempotent. -/
theorem filter_ne_idem (s : Nat) (l : List OggPage) :
    (l.filter (fun p => p.serial != s)).filter (fun p => p.serial != s)
      = l.filter (fun p => p.serial != s) := by
  induction l with
  | nil => rfl
  | cons a t ih =>
    by_cases ha : a.serial = s
    · simp [List.filter_cons, ha, ih]
    · simp [List.filter_cons, ha, ih]

/-- Numbered frames carry the consecutive sequence numbers. -/
theorem numberFrames_map_seq (q : Nat) (l : List OggPage) :
    (numberFrames q l).map (fun p => p.sequence) = List.range' q l.length := by
  induction l generalizing q with
  | nil => rfl
  | cons a t ih =>
    rw [numberFrames]
    simp only [List.map_cons, ih, List.length_cons, List.range'_succ]

/-- Overwriting the final completeness flag preserves the sequence
numbers. -/
theorem setLastComplete_map_seq (c : Bool) (l : List OggPage) :
    (setLastComplete c l).map (fun p => p.sequence)
      = l.map (fun p => p.sequence) := by
  induction l with
  | nil => rfl
  | cons a t ih =>
    cases t with
    | nil => rfl
    | cons b2 t2 => rw [setLastComplete]; simp only [List.map_cons, ih]

/-- Setting the serial preserves the sequence numbers. -/
theorem mapSerial_map_seq (s : Nat) (l : List OggPage) :
    ((l.map (fun p => { p with serial := s })).map (fun p => p.sequence))
      = l.map (fun p => p.sequence) := by
  rw [List.map_map]
  rfl

/-- The frames built by inject are numbered consecutively from the
sequence of the first old frame. -/
theorem buildNewPages_map_seq (old : List OggPage) (md : List Nat)
    (pkts : List (List Nat)) :
    (buildNewPages old md pkts).map (fun p => p.sequence)
      = List.range' (old.headD dPage).sequence
          (buildNewPages old md pkts).length := by
  rw [buildNewPages, setLastComplete_map_seq, mapSerial_map_seq,
    setLastComplete_length, List.length_map]
  rw [from_packets, numberFrames_map_seq, numberFrames_length]

/-- Overwriting the final completeness flag preserves the serials. -/
theorem setLastComplete_serials (c : Bool) (s : Nat) (l : List OggPage)
    (h : ∀ p ∈ l, p.serial = s) :
    ∀ p ∈ setLastComplete c l, p.serial = s := by
  induction l with
  | nil => intro p hp; simp [setLastComplete] at hp
  | cons a t ih =>
    intro p hp
    cases t with
    | nil =>
      simp only [setLastComplete, List.mem_singleton] at hp
      rw [hp]
      exact h a (by simp)
    | cons b2 t2 =>
      rw [setLastComplete] at hp
      rcases List.mem_cons.mp hp with hq | hq
      · rw [hq]; exact h a (by simp)
      · exact ih (fun r hr => h r (by simp [hr])) p hq

/-- Every frame built by inject carries the serial of the old frames. -/
theorem buildNewPages_serials (old : List OggPage) (md : List Nat)
    (pkts : List (List Nat)) :
    ∀ p ∈ buildNewPages old md pkts,
      p.serial = (old.headD dPage).serial := by
  rw [buildNewPages]
  apply setLastComplete_serials
  intro p hp
  rcases List.mem_map.mp hp with ⟨p0, _, hpeq⟩
  rw [← hpeq]

/-- The frames built by inject survive the target-serial filter whole. -/
theorem buildNewPages_filter_eq (old : List OggPage) (md : List Nat)
    (pkts : List (List Nat)) :
    (buildNewPages old md pkts).filter
        (fun p => p.serial == (old.headD dPage).serial)
      = buildNewPages old md pkts :=
  List.filter_eq_self.mpr
    (fun p hp => by simp [buildNewPages_serials old md pkts p hp])

/-- No frame built by inject matches the complement filter. -/
theorem buildNewPages_filter_ne (old : List OggPage) (md : List Nat)
    (pkts : List (List Nat)) :
    (buildNewPages old md pkts).filter
        (fun p => p.serial != (old.headD dPage).serial)
      = [] :=
  List.filter_eq_nil_iff.mpr
    (fun p hp => by simp [buildNewPages_serials old md pkts p hp])

/-- Inject builds at least one frame. -/
theorem buildNewPages_length_pos (old : List OggPage) (md : List Nat)
    (pkts : List (List Nat)) :
    0 < (buildNewPages old md pkts).length := by
  rw [buildNewPages, setLastComplete_length, List.length_map, from_packets,
    numberFrames_length]
  simp only [List.map_cons, List.map_nil, List.flatten_cons, List.flatten_nil,
    List.length_append, List.length_nil]
  have h0 := List.length_pos.mpr (framesForPacket_ne_nil (commentMarker ++ md))
  omega

/-- Final entry of an arithmetic run. -/
theorem range'_getLastD (q n : Nat) (hn : n ≠ 0) :
    (List.range' q n).getLastD 0 = q + n - 1 := by
  cases n with
  | zero => exact absurd rfl hn
  | succ m =>
    rw [List.range'_1_concat, List.getLastD_concat]
    omega

/-- The sequence of the final frame built by inject. -/
theorem buildNewPages_getLast_seq (old : List OggPage) (md : List Nat)
    (pkts : List (List Nat)) :
    ((buildNewPages old md pkts).getLastD dPage).sequence
      = (old.headD dPage).sequence
        + (buildNewPages old md pkts).length - 1 := by
  have h1 := List.getLastD_map (fun p => p.sequence)
    (buildNewPages old md pkts) dPage
  rw [buildNewPages_map_seq] at h1
  have h2 : dPage.sequence = 0 := rfl
  rw [h2] at h1
  rw [range'_getLastD _ _
    (by have := buildNewPages_length_pos old md pkts; omega)] at h1
  rw [← h1]

/-- A contiguous list splits into three arithmetic runs. -/
theorem contig_decomp (X Y Z : List Nat)
    (h : isContig (X ++ (Y ++ Z)) = true) :
    ∃ a, X = List.range' a X.length
      ∧ Y = List.range' (a + X.length) Y.length
      ∧ Z = List.range' (a + X.length + Y.length) Z.length := by
  have hA := isContig_eq_range' _ h
  refine ⟨(X ++ (Y ++ Z)).headD 0, ?_⟩
  obtain ⟨k1, hk1le, hX, hrest⟩ := List.range'_eq_append_iff.mp hA.symm
  have hk1 : k1 = X.length := by
    have h2 := congrArg List.length hX
    simpa using h2.symm
  subst hk1
  obtain ⟨k2, hk2le, hY, hZ⟩ := List.range'_eq_append_iff.mp hrest.symm
  have hk2 : k2 = Y.length := by
    have h2 := congrArg List.length hY
    simpa using h2.symm
  subst hk2
  refine ⟨hX, hY, ?_⟩
  have htot : (X ++ (Y ++ Z)).length = X.length + (Y.length + Z.length) := by
    simp
  have hzl : (X ++ (Y ++ Z)).length - X.length - Y.length = Z.length := by
    omega
  rw [hzl] at hZ
  exact hZ

/-- Three adjacent arithmetic runs concatenate to a contiguous list. -/
theorem assembled_contig (a p n tlen : Nat) (Am Nm Tm : List Nat)
    (hA : Am = List.range' a p) (hN : Nm = List.range' (a + p) n)
    (hT : Tm = List.range' (a + p + n) tlen) :
    isContig (Am ++ (Nm ++ Tm)) = true := by
  subst hA hN hT
  rw [List.range'_append_1, List.range'_append_1]
  exact isContig_range' _ _

/-- C1: after a successful inject the sequence numbers of the target
serial are strictly contiguous from the first frame of that serial to the
last one in the file; frames of other serials are not modified; and the
target-serial frames downstream of the new frames keep everything but
their sequence field (they are renumbered consecutively after the last
new frame when the frame count changed; checksums are recomputed when
frames are written back).  Contiguity of the input file is assumed. -/
theorem inject_seq_contiguous (file : List OggPage) (md : List Nat)
    (pre region old tail nps file2 : List OggPage) (s : Nat)
    (hscan : scanComments file = .ok (pre, region, old, tail))
    (hs : s = (old.headD dPage).serial)
    (hn : newPagesOf file md = some nps)
    (hok : inject file md = .ok file2)
    (hcontig : isContig (seqsOf s file) = true) :
    isContig (seqsOf s file2) = true
    ∧ file2.filter (fun p => p.serial != s)
        = file.filter (fun p => p.serial != s)
    ∧ ((file2.filter (fun p => p.serial == s)).drop
          ((pre.filter (fun p => p.serial == s)).length + nps.length)).map
        stripSeq
      = ((file.filter (fun p => p.serial == s)).drop
          ((pre.filter (fun p => p.serial == s)).length + old.length)).map
        stripSeq := by
  obtain ⟨hone, hfile, hpreF, hheadR, hmark, hfilterR⟩ :=
    scanComments_spec file pre region old tail hscan
  have hfilter2 : region.filter (fun p => p.serial == s) = old := by
    rw [hs]; exact hfilterR
  have hdecomp : seqsOf s file
      = (pre.filter (fun p => p.serial == s)).map (fun p => p.sequence)
        ++ (old.map (fun p => p.sequence)
        ++ (tail.filter (fun p => p.serial == s)).map
             (fun p => p.sequence)) := by
    rw [seqsOf, hfile]
    rw [List.filter_append, List.filter_append, hfilter2]
    simp [List.map_append]
  rw [hdecomp] at hcontig
  obtain ⟨a, hX, hY, hZ⟩ := contig_decomp _ _ _ hcontig
  simp only [List.length_map] at hX hY hZ
  obtain ⟨o0, old2, holdc⟩ := List.exists_cons_of_ne_nil hone
  have hstart : (old.headD dPage).sequence
      = a + (pre.filter (fun p => p.serial == s)).length := by
    rw [holdc] at hY
    simp only [List.map_cons, List.length_cons, List.range'_succ] at hY
    have h0 := (List.cons.injEq _ _ _ _).mp hY
    rw [holdc]
    simpa using h0.1
  unfold inject at hok
  rw [hscan] at hok
  dsimp only at hok
  cases hpk : to_packets old with
  | error e => rw [hpk] at hok; dsimp only at hok; cases hok
  | ok pkts =>
  rw [hpk] at hok
  dsimp only at hok
  split at hok
  · next hlen =>
    have hnb : nps = buildNewPages old md pkts := by
      unfold newPagesOf at hn
      rw [hscan] at hn
      dsimp only at hn
      rw [hpk] at hn
      dsimp only at hn
      rw [if_pos hlen] at hn
      simp only [Option.some.injEq] at hn
      exact hn.symm
    have hnfe : nps.filter (fun p => p.serial == s) = nps := by
      rw [hnb, hs]; exact buildNewPages_filter_eq old md pkts
    have hnfne : nps.filter (fun p => p.serial != s) = [] := by
      rw [hnb, hs]; exact buildNewPages_filter_ne old md pkts
    have hnm : nps.map (fun p => p.sequence)
        = List.range'
            (a + (pre.filter (fun p => p.serial == s)).length)
            nps.length := by
      rw [hnb, buildNewPages_map_seq, hstart]
    have hnpos : 0 < nps.length := by
      rw [hnb]; exact buildNewPages_length_pos old md pkts
    rw [← hs, ← hnb] at hok
    split at hok
    · next heq =>
      simp only [Except.ok.injEq] at hok
      subst hok
      have hTm2 : (tail.filter (fun p => p.serial == s)).map
            (fun p => p.sequence)
          = List.range'
              (a + (pre.filter (fun p => p.serial == s)).length
                 + nps.length)
              (tail.filter (fun p => p.serial == s)).length := by
        rw [hZ]
        congr 1
        omega
      refine ⟨?_, ?_, ?_⟩
      · rw [seqsOf]
        simp only [List.filter_append, List.map_append, List.append_assoc,
          hnfe, filter_ne_then_eq, List.nil_append, List.map_nil]
        exact assembled_contig a
          (pre.filter (fun p => p.serial == s)).length nps.length
          (tail.filter (fun p => p.serial == s)).length _ _ _ hX hnm hTm2
      · rw [hfile]
        simp only [List.filter_append, hnfne, filter_ne_idem,
          List.append_assoc, List.nil_append]
      · rw [hfile]
        simp only [List.filter_append, hnfe, filter_ne_then_eq, hfilter2,
          List.nil_append]
        rw [(by simp : (pre.filter (fun p => p.serial == s)).length
              + nps.length
              = ((pre.filter (fun p => p.serial == s)) ++ nps).length),
            (by simp : (pre.filter (fun p => p.serial == s)).length
              + old.length
              = ((pre.filter (fun p => p.serial == s)) ++ old).length),
            List.drop_left, List.drop_left]
    · next heq =>
      simp only [Except.ok.injEq] at hok
      subst hok
      have hq0 : (nps.getLastD dPage).sequence + 1
          = a + (pre.filter (fun p => p.serial == s)).length
            + nps.length := by
        have hg := buildNewPages_getLast_seq old md pkts
        rw [← hnb] at hg
        rw [hg, hstart]
        have hp2 : 0 < nps.length := hnpos
        omega
      have hTm3 : ((renumber s ((nps.getLastD dPage).sequence + 1)
            (region.filter (fun p => p.serial != s) ++ tail)).filter
              (fun p => p.serial == s)).map (fun p => p.sequence)
          = List.range'
              (a + (pre.filter (fun p => p.serial == s)).length
                 + nps.length)
              (tail.filter (fun p => p.serial == s)).length := by
        rw [renumber_filter_eq_seqs]
        rw [List.filter_append, filter_ne_then_eq, List.nil_append, hq0]
      refine ⟨?_, ?_, ?_⟩
      · rw [seqsOf]
        simp only [List.filter_append, List.map_append, List.append_assoc,
          hnfe, List.nil_append]
        exact assembled_contig a
          (pre.filter (fun p => p.serial == s)).length nps.length
          (tail.filter (fun p => p.serial == s)).length _ _ _ hX hnm hTm3
      · rw [hfile]
        simp only [List.filter_append, hnfne, renumber_filter_ne,
          filter_ne_idem, List.append_assoc, List.nil_append]
      · rw [hfile]
        simp only [List.filter_append, hnfe, filter_ne_then_eq, hfilter2,
          List.nil_append]
        rw [(by simp : (pre.filter (fun p => p.serial == s)).length
              + nps.length
              = ((pre.filter (fun p => p.serial == s)) ++ nps).length),
            (by simp : (pre.filter (fun p => p.serial == s)).length
              + old.length
              = ((pre.filter (fun p => p.serial == s)) ++ old).length),
            List.drop_left, List.drop_left]
        rw [renumber_filter_eq_strip]
        rw [List.filter_append, filter_ne_then_eq, List.nil_append]
  · next => cases hok

/-- C1 witness: a concrete inject that grows one comment frame into two,
triggering the renumber branch; the contiguity and preservation
conclusions hold at this file. -/
theorem inject_seq_contiguous_witness :
    isContig (seqsOf 1
      [{ serial := 1, sequence := 0, position := 0, first := true,
         last := false, continued := false, complete := true,
         packets := [[1, 118, 111, 114, 98, 105, 115]] },
       { serial := 1, sequence := 1, position := 0, first := false,
         last := false, continued := false, complete := true,
         packets := [[3, 118, 111, 114, 98, 105, 115, 97]] },
       { serial := 1, sequence := 2, position := 0, first := false,
         last := false, continued := false, complete := true,
         packets := [[5, 118, 111, 114, 98, 105, 115]] },
       { serial := 1, sequence := 3, position := 100, first := false,
         last := true, continued := false, complete := true,
         packets := [[77]] }]) = true
    ∧ ([{ serial := 1, sequence := 0, position := 0, first := true,
          last := false, continued := false, complete := true,
          packets := [[1, 118, 111, 114, 98, 105, 115]] },
        { serial := 1, sequence := 1, position := 0, first := false,
          last := false, continued := false, complete := true,
          packets := [[3, 118, 111, 114, 98, 105, 115, 97]] },
        { serial := 1, sequence := 2, position := 0, first := false,
          last := false, continued := false, complete := true,
          packets := [[5, 118, 111, 114, 98, 105, 115]] },
        { serial := 1, sequence := 3, position := 100, first := false,
          last := true, continued := false, complete := true,
          packets := [[77]] }] : List OggPage).filter
        (fun p => p.serial != 1)
      = ([{ serial := 1, sequence := 0, position := 0, first := true,
            last := false, continued := false, complete := true,
            packets := [[1, 118, 111, 114, 98, 105, 115]] },
          { serial := 1, sequence := 1, position := 0, first := false,
            last := false, continued := false, complete := true,
            packets := [[3, 118, 111, 114, 98, 105, 115, 97],
                        [5, 118, 111, 114, 98, 105, 115]] },
          { serial := 1, sequence := 2, position := 100, first := false,
            last := true, continued := false, complete := true,
            packets := [[77]] }] : List OggPage).filter
          (fun p => p.serial != 1)
    ∧ ((([{ serial := 1, sequence := 0, position := 0, first := true,
            last := false, continued := false, complete := true,
            packets := [[1, 118, 111, 114, 98, 105, 115]] },
          { serial := 1, sequence := 1, position := 0, first := false,
            last := false, continued := false, complete := true,
            packets := [[3, 118, 111, 114, 98, 105, 115, 97]] },
          { serial := 1, sequence := 2, position := 0, first := false,
            last := false, continued := false, complete := true,
            packets := [[5, 118, 111, 114, 98, 105, 115]] },
          { serial := 1, sequence := 3, position := 100, first := false,
            last := true, continued := false, complete := true,
            packets := [[77]] }] : List OggPage).filter
          (fun p => p.serial == 1)).drop 3).map stripSeq
      = ((([{ serial := 1, sequence := 0, position := 0, first := true,
              last := false, continued := false, complete := true,
              packets := [[1, 118, 111, 114, 98, 105, 115]] },
            { serial := 1, sequence := 1, position := 0, first := false,
              last := false, continued := false, complete := true,
              packets := [[3, 118, 111, 114, 98, 105, 115, 97],
                          [5, 118, 111, 114, 98, 105, 115]] },
            { serial := 1, sequence := 2, position := 100, first := false,
              last := true, continued := false, complete := true,
              packets := [[77]] }] : List OggPage).filter
            (fun p => p.serial == 1)).drop 2).map stripSeq :=
  inject_seq_contiguous
    [{ serial := 1, sequence := 0, position := 0, first := true,
       last := false, continued := false, complete := true,
       packets := [[1, 118, 111, 114, 98, 105, 115]] },
     { serial := 1, sequence := 1, position := 0, first := false,
       last := false, continued := false, complete := true,
       packets := [[3, 118, 111, 114, 98, 105, 115, 97],
                   [5, 118, 111, 114, 98, 105, 115]] },
     { serial := 1, sequence := 2, position := 100, first := false,
       last := true, continued := false, complete := true,
       packets := [[77]] }]
    [97]
    [{ serial := 1, sequence := 0, position := 0, first := true,
       last := false, continued := false, complete := true,
       packets := [[1, 118, 111, 114, 98, 105, 115]] }]
    [{ serial := 1, sequence := 1, position := 0, first := false,
       last := false, continued := false, complete := true,
       packets := [[3, 118, 111, 114, 98, 105, 115, 97],
                   [5, 118, 111, 114, 98, 105, 115]] }]
    [{ serial := 1, sequence := 1, position := 0, first := false,
       last := false, continued := false, complete := true,
       packets := [[3, 118, 111, 114, 98, 105, 115, 97],
                   [5, 118, 111, 114, 98, 105, 115]] }]
    [{ serial := 1, sequence := 2, position := 100, first := false,
       last := true, continued := false, complete := true,
       packets := [[77]] }]
    [{ serial := 1, sequence := 1, position := 0, first := false,
       last := false, continued := false, complete := true,
       packets := [[3, 118, 111, 114, 98, 105, 115, 97]] },
     { serial := 1, sequence := 2, position := 0, first := false,
       last := false, continued := false, complete := true,
       packets := [[5, 118, 111, 114, 98, 105, 115]] }]
    [{ serial := 1, sequence := 0, position := 0, first := true,
       last := false, continued := false, complete := true,
       packets := [[1, 118, 111, 114, 98, 105, 115]] },
     { serial := 1, sequence := 1, position := 0, first := false,
       last := false, continued := false, complete := true,
       packets := [[3, 118, 111, 114, 98, 105, 115, 97]] },
     { serial := 1, sequence := 2, position := 0, first := false,
       last := false, continued := false, complete := true,
       packets := [[5, 118, 111, 114, 98, 105, 115]] },
     { serial := 1, sequence := 3, position := 100, first := false,
       last := true, continued := false, complete := true,
       packets := [[77]] }]
    1
    (by rfl) (by rfl) (by rfl) (by rfl) (by rfl)

/-- Once the current frame matches the target serial and is not flagged
last, the slow duration loop never terminates: neither loop advances the
cursor, so the state repeats for ever. -/
theorem slowStep_stuck (target fuel : Nat) (phase : Bool) (cur : OggPage)
    (rest : List OggPage) (samples : Nat)
    (hser : cur.serial = target) (hlast : cur.last = false)
    (hmax : max samples cur.position = samples) :
    slowStep target fuel phase cur rest samples = none := by
  induction fuel generalizing phase with
  | zero => rfl
  | succ m ih =>
    rw [slowStep.eq_def]
    dsimp only
    by_cases hph : phase = true
    · rw [if_pos hph, hlast]
      simp only [Bool.false_eq_true, if_false]
      exact ih false
    · rw [if_neg hph]
      rw [if_neg (by simp [hser])]
      rw [hmax]
      exact ih true

/-- C7: the slow multiplexed duration scan diverges.  On the two-stream
file below (target serial 1; a non-last serial-1 frame with granule 10
followed by a last-flagged serial-2 frame) the claim says the scan stops
at the is-last frame and reports the serial-1 maximum 10; the code never
advances once the serial-1 frame is current and the loop runs for ever:
no amount of fuel makes it produce a result. -/
theorem slow_scan_diverges :
    ∀ fuel : Nat,
      slowSamples 1 fuel
        [{ serial := 1, sequence := 0, position := 10, first := true,
           last := false, continued := false, complete := true,
           packets := [[1, 118, 111, 114, 98, 105, 115]] },
         { serial := 2, sequence := 0, position := 99, first := false,
           last := true, continued := false, complete := true,
           packets := [[33]] }] = none := by
  intro fuel
  rw [slowSamples]
  exact slowStep_stuck 1 fuel true _ _ _ rfl rfl (by decide)

/-- C8: the fast duration path takes the 64 KiB tail window (the whole
file when smaller) and scans backward for the last magic signature.
With no signature in the window the load fails with NoHeaderError; when
the frame decoded at the last signature bears the target serial, the
duration is its granule position divided by the sample rate. -/
theorem load_fast_path (data : List Nat) (target rate : Nat) (p : OggPage) :
    (findLastMagic (tailWindow data) = none →
      loadLengthFast data target rate = .error .noHeader)
    ∧ (lastPageScan data = .ok p → p.serial = target →
      loadLengthFast data target rate
        = .ok (some ((p.position : ℚ) / (rate : ℚ)))) := by
  constructor
  · intro hnone
    unfold loadLengthFast lastPageScan
    rw [hnone]
  · intro hok hser
    unfold loadLengthFast
    rw [hok]
    dsimp only
    rw [if_pos hser]

/-- C8 witness: a file without any magic signature fails with
NoHeaderError, and a file ending in a serial-42 frame with granule
position 88200 at rate 44100 reports exactly that duration. -/
theorem load_fast_path_witness :
    loadLengthFast [1, 2, 3] 0 1 = .error .noHeader
    ∧ loadLengthFast
        (renderFile
          [{ serial := 42, sequence := 7, position := 88200,
             first := false, last := true, continued := false,
             complete := true, packets := [[9, 9, 9]] }]) 42 44100
      = .ok (some ((((88200 : Nat)) : ℚ) / (((44100 : Nat)) : ℚ))) :=
  ⟨(load_fast_path [1, 2, 3] 0 1 dPage).1 (by rfl),
   (load_fast_path
      (renderFile
        [{ serial := 42, sequence := 7, position := 88200,
           first := false, last := true, continued := false,
           complete := true, packets := [[9, 9, 9]] }]) 42 44100
      { serial := 42, sequence := 7, position := 88200,
        first := false, last := true, continued := false,
        complete := true, packets := [[9, 9, 9]] }).2 (by rfl) (by rfl)⟩

set_option maxRecDepth 4000 in
/-- C9 counterexample: re-injecting the currently stored metadata is not
byte-identical in general.  The file stores the comment packet (marker
plus the blob [104]) and the setup packet on one shared frame; inject
with the same blob [104] refragments them into two frames, renumbers the
tail, and both the frame sequence and the rendered bytes change. -/
theorem inject_reinject_cex :
    inject
        [{ serial := 3, sequence := 0, position := 0, first := true,
           last := false, continued := false, complete := true,
           packets := [[1, 118, 111, 114, 98, 105, 115]] },
         { serial := 3, sequence := 1, position := 0, first := false,
           last := false, continued := false, complete := true,
           packets := [[3, 118, 111, 114, 98, 105, 115, 104],
                       [5, 118, 111, 114, 98, 105, 115]] },
         { serial := 3, sequence := 2, position := 50, first := false,
           last := true, continued := false, complete := true,
           packets := [[88]] }] [104]
      = .ok
        [{ serial := 3, sequence := 0, position := 0, first := true,
           last := false, continued := false, complete := true,
           packets := [[1, 118, 111, 114, 98, 105, 115]] },
         { serial := 3, sequence := 1, position := 0, first := false,
           last := false, continued := false, complete := true,
           packets := [[3, 118, 111, 114, 98, 105, 115, 104]] },
         { serial := 3, sequence := 2, position := 0, first := false,
           last := false, continued := false, complete := true,
           packets := [[5, 118, 111, 114, 98, 105, 115]] },
         { serial := 3, sequence := 3, position := 50, first := false,
           last := true, continued := false, complete := true,
           packets := [[88]] }]
    ∧ ([{ serial := 3, sequence := 0, position := 0, first := true,
          last := false, continued := false, complete := true,
          packets := [[1, 118, 111, 114, 98, 105, 115]] },
        { serial := 3, sequence := 1, position := 0, first := false,
          last := false, continued := false, complete := true,
          packets := [[3, 118, 111, 114, 98, 105, 115, 104]] },
        { serial := 3, sequence := 2, position := 0, first := false,
          last := false, continued := false, complete := true,
          packets := [[5, 118, 111, 114, 98, 105, 115]] },
        { serial := 3, sequence := 3, position := 50, first := false,
          last := true, continued := false, complete := true,
          packets := [[88]] }] : List OggPage)
      ≠ [{ serial := 3, sequence := 0, position := 0, first := true,
           last := false, continued := false, complete := true,
           packets := [[1, 118, 111, 114, 98, 105, 115]] },
         { serial := 3, sequence := 1, position := 0, first := false,
           last := false, continued := false, complete := true,
           packets := [[3, 118, 111, 114, 98, 105, 115, 104],
                       [5, 118, 111, 114, 98, 105, 115]] },
         { serial := 3, sequence := 2, position := 50, first := false,
           last := true, continued := false, complete := true,
           packets := [[88]] }]
    ∧ renderFile
        [{ serial := 3, sequence := 0, position := 0, first := true,
           last := false, continued := false, complete := true,
           packets := [[1, 118, 111, 114, 98, 105, 115]] },
         { serial := 3, sequence := 1, position := 0, first := false,
           last := false, continued := false, complete := true,
           packets := [[3, 118, 111, 114, 98, 105, 115, 104]] },
         { serial := 3, sequence := 2, position := 0, first := false,
           last := false, continued := false, complete := true,
           packets := [[5, 118, 111, 114, 98, 105, 115]] },
         { serial := 3, sequence := 3, position := 50, first := false,
           last := true, continued := false, complete := true,
           packets := [[88]] }]
      ≠ renderFile
        [{ serial := 3, sequence := 0, position := 0, first := true,
           last := false, continued := false, complete := true,
           packets := [[1, 118, 111, 114, 98, 105, 115]] },
         { serial := 3, sequence := 1, position := 0, first := false,
           last := false, continued := false, complete := true,
           packets := [[3, 118, 111, 114, 98, 105, 115, 104],
                       [5, 118, 111, 114, 98, 105, 115]] },
         { serial := 3, sequence := 2, position := 50, first := false,
           last := true, continued := false, complete := true,
           packets := [[88]] }] := by
  refine ⟨by rfl, by decide, by decide⟩

/-- C9 amended: re-injection is byte-identical for files whose traversed
region consists exactly of the target-serial old frames and whose old
frames already equal the canonical refragmentation of the packets being
written, as holds for any file produced by a previous inject.  In
general the claim fails (see the counterexample): re-injecting the
stored metadata may change the frame layout. -/
theorem inject_reinject_identity (file : List OggPage) (md : List Nat)
    (pre region old tail : List OggPage)
    (hscan : scanComments file = .ok (pre, region, old, tail))
    (hreg : region = old)
    (hn : newPagesOf file md = some old) :
    inject file md = .ok file
    ∧ renderFile (injectFile file md) = renderFile file := by
  obtain ⟨hone, hfile, hpreF, hheadR, hmark, hfilterR⟩ :=
    scanComments_spec file pre region old tail hscan
  unfold newPagesOf at hn
  rw [hscan] at hn
  dsimp only at hn
  cases hpk : to_packets old with
  | error e => rw [hpk] at hn; dsimp only at hn; cases hn
  | ok pkts =>
  rw [hpk] at hn
  dsimp only at hn
  split at hn
  · next hlen =>
    simp only [Option.some.injEq] at hn
    have hall : ∀ p ∈ old, p.serial = (old.headD dPage).serial := by
      intro p hp
      have h2 : old.filter
          (fun r => r.serial == (old.headD dPage).serial) = old := by
        rw [← hreg] at *
        exact hfilterR
      have h3 := List.filter_eq_self.mp h2 p hp
      simpa using h3
    have hofne : old.filter
        (fun p => p.serial != (old.headD dPage).serial) = [] :=
      List.filter_eq_nil_iff.mpr (fun p hp => by simp [hall p hp])
    have hinj : inject file md = .ok file := by
      unfold inject
      rw [hscan]
      dsimp only
      rw [hpk]
      dsimp only
      rw [if_pos hlen]
      rw [hn, hreg, hofne, if_pos rfl]
      rw [List.nil_append]
      rw [← hreg, ← hfile]
    refine ⟨hinj, ?_⟩
    unfold injectFile
    rw [hinj]
  · next => cases hn

/-- C9 amended witness: a canonical file (as a previous inject leaves it)
is reproduced byte for byte by re-injection of its stored metadata. -/
theorem inject_reinject_identity_witness :
    inject
        [{ serial := 5, sequence := 0, position := 0, first := true,
           last := false, continued := false, complete := true,
           packets := [[1, 118, 111, 114, 98, 105, 115]] },
         { serial := 5, sequence := 1, position := 0, first := false,
           last := false, continued := false, complete := true,
           packets := [[3, 118, 111, 114, 98, 105, 115, 104]] },
         { serial := 5, sequence := 2, position := 0, first := false,
           last := false, continued := false, complete := true,
           packets := [[5, 118, 111, 114, 98, 105, 115]] },
         { serial := 5, sequence := 3, position := 77, first := false,
           last := true, continued := false, complete := true,
           packets := [[66]] }] [104]
      = .ok
        [{ serial := 5, sequence := 0, position := 0, first := true,
           last := false, continued := false, complete := true,
           packets := [[1, 118, 111, 114, 98, 105, 115]] },
         { serial := 5, sequence := 1, position := 0, first := false,
           last := false, continued := false, complete := true,
           packets := [[3, 118, 111, 114, 98, 105, 115, 104]] },
         { serial := 5, sequence := 2, position := 0, first := false,
           last := false, continued := false, complete := true,
           packets := [[5, 118, 111, 114, 98, 105, 115]] },
         { serial := 5, sequence := 3, position := 77, first := false,
           last := true, continued := false, complete := true,
           packets := [[66]] }]
    ∧ renderFile (injectFile
        [{ serial := 5, sequence := 0, position := 0, first := true,
           last := false, continued := false, complete := true,
           packets := [[1, 118, 111, 114, 98, 105, 115]] },
         { serial := 5, sequence := 1, position := 0, first := false,
           last := false, continued := false, complete := true,
           packets := [[3, 118, 111, 114, 98, 105, 115, 104]] },
         { serial := 5, sequence := 2, position := 0, first := false,
           last := false, continued := false, complete := true,
           packets := [[5, 118, 111, 114, 98, 105, 115]] },
         { serial := 5, sequence := 3, position := 77, first := false,
           last := true, continued := false, complete := true,
           packets := [[66]] }] [104])
      = renderFile
        [{ serial := 5, sequence := 0, position := 0, first := true,
           last := false, continued := false, complete := true,
           packets := [[1, 118, 111, 114, 98, 105, 115]] },
         { serial := 5, sequence := 1, position := 0, first := false,
           last := false, continued := false, complete := true,
           packets := [[3, 118, 111, 114, 98, 105, 115, 104]] },
         { serial := 5, sequence := 2, position := 0, first := false,
           last := false, continued := false, complete := true,
           packets := [[5, 118, 111, 114, 98, 105, 115]] },
         { serial := 5, sequence := 3, position := 77, first := false,
           last := true, continued := false, complete := true,
           packets := [[66]] }] :=
  inject_reinject_identity
    [{ serial := 5, sequence := 0, position := 0, first := true,
       last := false, continued := false, complete := true,
       packets := [[1, 118, 111, 114, 98, 105, 115]] },
     { serial := 5, sequence := 1, position := 0, first := false,
       last := false, continued := false, complete := true,
       packets := [[3, 118, 111, 114, 98, 105, 115, 104]] },
     { serial := 5, sequence := 2, position := 0, first := false,
       last := false, continued := false, complete := true,
       packets := [[5, 118, 111, 114, 98, 105, 115]] },
     { serial := 5, sequence := 3, position := 77, first := false,
       last := true, continued := false, complete := true,
       packets := [[66]] }]
    [104]
    [{ serial := 5, sequence := 0, position := 0, first := true,
       last := false, continued := false, complete := true,
       packets := [[1, 118, 111, 114, 98, 105, 115]] }]
    [{ serial := 5, sequence := 1, position := 0, first := false,
       last := false, continued := false, complete := true,
       packets := [[3, 118, 111, 114, 98, 105, 115, 104]] },
     { serial := 5, sequence := 2, position := 0, first := false,
       last := false, continued := false, complete := true,
       packets := [[5, 118, 111, 114, 98, 105, 115]] }]
    [{ serial := 5, sequence := 1, position := 0, first := false,
       last := false, continued := false, complete := true,
       packets := [[3, 118, 111, 114, 98, 105, 115, 104]] },
     { serial := 5, sequence := 2, position := 0, first := false,
       last := false, continued := false, complete := true,
       packets := [[5, 118, 111, 114, 98, 105, 115]] }]
    [{ serial := 5, sequence := 3, position := 77, first := false,
       last := true, continued := false, complete := true,
       packets := [[66]] }]
    (by rfl) (by rfl) (by rfl)
